import Mathlib

/-!
Verification development for the E4X (ECMAScript for XML) object layer and the
socket registry of the Ruffle flash-player core.

The object layer (`XmlObject`, `XmlListObject`, the `XMLList` globals) and the
socket registry (`Sockets`) are embedded from their Rust sources
(`core/src/avm2/object/xml_object.rs`, `core/src/avm2/object/xml_list_object.rs`,
`core/src/avm2/globals/xml_list.rs`, `core/src/socket.rs`).  The underlying
node store (`E4XNode`, file `core/src/avm2/e4x.rs`), the `Multiname` type, the
error constructors `make_error_1087`/`make_error_1089`, value-to-string
coercion, and `SocketObject::set_handle` are not part of the available sources;
those are modelled from the specification and are marked as such.

Stateful Rust code is embedded as explicit state passing: a shared heap of
nodes, XML wrapper objects and XMLList objects, with operations of type
`St → Except Err α × St` (the returned state is the state at the point of the
return, also on the error path).  Mutual recursion between `[[ResolveValue]]`
and `[[Put]]` is made total with a fuel parameter; running out of fuel is a
distinguished error that no theorem below confuses with a real result.
-/

/-- Node / object identifiers: indices into the respective heaps. -/
abbrev NodeId := Nat

abbrev XmlId := Nat

abbrev ListId := Nat

/-- Modelled from the spec: a namespace is either the public namespace or an
explicit (package) namespace with a URI.  (`Namespace` lives outside the
available sources.) -/
inductive Ns where
  | pubNs
  | pkg (uri : String)
deriving DecidableEq

/-- Modelled from the spec: a `Multiname` is a qualified-name matcher: local
name (`none` meaning the wildcard `*`), namespace, attribute flag.
(`Multiname` lives outside the available sources.) -/
structure Multiname where
  localName : Option String
  ns : Ns
  isAttr : Bool
deriving DecidableEq

namespace Multiname

def isAnyName (n : Multiname) : Bool := n.localName.isNone

def isAttribute (n : Multiname) : Bool := n.isAttr

/-- Modelled from the spec: the public namespace is not an explicit namespace. -/
def hasExplicitNamespace (n : Multiname) : Bool :=
  match n.ns with
  | .pubNs => false
  | .pkg _ => true

def explictNamespace (n : Multiname) : Option String :=
  match n.ns with
  | .pubNs => none
  | .pkg uri => some uri

/-- `Multiname::new(ns, name)`: a non-attribute multiname. -/
def mk' (ns : Ns) (name : String) : Multiname := ⟨some name, ns, false⟩

/-- `Multiname::attribute(ns, name)`. -/
def attrName (ns : Ns) (name : String) : Multiname := ⟨some name, ns, true⟩

/-- `Multiname::any()`: the wildcard `*`. -/
def anyName : Multiname := ⟨none, .pubNs, false⟩

end Multiname

/-- Modelled from the spec: the kinds of nodes of the XML node store
(`E4XNodeKind` lives outside the available sources).  An `element` holds its
attributes and children as ordered sequences of node references. -/
inductive E4XNodeKind where
  | element (attributes : List NodeId) (children : List NodeId)
  | text (s : String)
  | cdata (s : String)
  | comment (s : String)
  | processingInstruction (s : String)
  | attr (s : String)
  | dummy
deriving DecidableEq

/-- Modelled from the spec: a node of the store: optional parent back-reference,
optional local name and namespace, and the kind payload.  Nodes are shared by
reference (`NodeId`); mutation through one alias is visible through all. -/
structure E4XNode where
  parent : Option NodeId
  localName : Option String
  ns : Option String
  kind : E4XNodeKind
deriving DecidableEq

instance : Inhabited E4XNode := ⟨⟨none, none, none, .dummy⟩⟩

/-- The data of an `XmlObject`: a handle wrapping exactly one node. -/
structure XmlData where
  node : NodeId
deriving DecidableEq

/-- `E4XOrXml`: an XMLList entry is either a bare node reference or an
already-materialized `XmlObject`. -/
inductive E4XOrXml where
  | e4x (n : NodeId)
  | xml (o : XmlId)
deriving DecidableEq

/-- `XmlOrXmlListObject`: either an `XmlObject` or an `XmlListObject`. -/
inductive XmlOrXmlList where
  | xml (o : XmlId)
  | list (l : ListId)
deriving DecidableEq

/-- The data of an `XmlListObject`: children, the lazy target bookkeeping and
its dirty flag. -/
structure ListData where
  children : List E4XOrXml
  targetObject : Option XmlOrXmlList
  targetProperty : Option Multiname
  targetDirty : Bool
deriving DecidableEq

instance : Inhabited ListData := ⟨⟨[], none, none, false⟩⟩

/-- The whole mutable state: the arena of nodes and the heaps of XML and
XMLList wrapper objects. -/
structure St where
  nodes : List E4XNode
  xmls : List XmlData
  lists : List ListData
deriving DecidableEq

/-- AVM2 values, restricted to the shapes the embedded functions distinguish:
`undefined`, `null`, strings (standing for all primitives after coercion), and
the two XML object kinds. -/
inductive Value where
  | undefined
  | null
  | string (s : String)
  | xmlObj (o : XmlId)
  | xmlListObj (l : ListId)
deriving DecidableEq

/-- Errors.  `avm code` models a catchable `Error::AvmError` carrying the given
stable numeric code (modelled from the spec for `make_error_1087` /
`make_error_1089`, which live outside the available sources); `internal` models
a non-catchable `Error::RustError` (string error or panic); `outOfFuel` is the
embedding's fuel-exhaustion marker. -/
inductive Err where
  | avm (code : Nat)
  | internal (msg : String)
  | outOfFuel
deriving DecidableEq

/-- Decidable equality of fallible results, used to evaluate the embedded
operations on concrete inputs. -/
instance {e a : Type} [DecidableEq e] [DecidableEq a] : DecidableEq (Except e a) := fun x y => by
  cases x with
  | error ex =>
      cases y with
      | error ey =>
          exact if h : ex = ey then Decidable.isTrue (by rw [h])
            else Decidable.isFalse (by intro hc; cases hc; exact h rfl)
      | ok _ => exact Decidable.isFalse (by intro hc; cases hc)
  | ok vx =>
      cases y with
      | error _ => exact Decidable.isFalse (by intro hc; cases hc)
      | ok vy =>
          exact if h : vx = vy then Decidable.isTrue (by rw [h])
            else Decidable.isFalse (by intro hc; cases hc; exact h rfl)

/-- `make_error_1087`: the catchable TypeError-equivalent for an illegal
indexed assignment on XML. -/
def makeError1087 : Err := .avm 1087

/-- `make_error_1089`: the catchable error for an illegal XMLList mutation. -/
def makeError1089 : Err := .avm 1089

namespace St

def node (st : St) (n : NodeId) : E4XNode := st.nodes.getD n default

def setNode (st : St) (n : NodeId) (v : E4XNode) : St :=
  { st with nodes := st.nodes.set n v }

def newNode (st : St) (v : E4XNode) : NodeId × St :=
  (st.nodes.length, { st with nodes := st.nodes ++ [v] })

def xml (st : St) (o : XmlId) : XmlData := st.xmls.getD o ⟨0⟩

def newXml (st : St) (n : NodeId) : XmlId × St :=
  (st.xmls.length, { st with xmls := st.xmls ++ [⟨n⟩] })

def list (st : St) (l : ListId) : ListData := st.lists.getD l default

def setList (st : St) (l : ListId) (d : ListData) : St :=
  { st with lists := st.lists.set l d }

def newList (st : St) (d : ListData) : ListId × St :=
  (st.lists.length, { st with lists := st.lists ++ [d] })

end St

/-- The node a list entry refers to (`E4XOrXml::node`). -/
def entryNode (st : St) : E4XOrXml → NodeId
  | .e4x n => n
  | .xml o => (st.xml o).node

/-- `E4XOrXml::get_or_create_xml`: materialize an entry into an `XmlObject`
(idempotent; allocation only in the bare case). -/
def getOrCreateXml (st : St) : E4XOrXml → XmlId × St
  | .e4x n => st.newXml n
  | .xml o => (o, st)

/-- Rust `usize::from_str`: an optional leading `+`, then one or more ASCII
digits, and the value must fit in a 64-bit machine word. -/
def parseUsize (s : String) : Option Nat :=
  let core := match s.toList with
    | '+' :: rest => rest
    | chars => chars
  if core.isEmpty then none
  else if core.all Char.isDigit then
    let v := core.foldl (fun a c => a * 10 + (c.toNat - 48)) 0
    if v < 2 ^ 64 then some v else none
  else none

def isElementKind : E4XNodeKind → Bool
  | .element _ _ => true
  | _ => false

def isAttrKind : E4XNodeKind → Bool
  | .attr _ => true
  | _ => false

def isPIKind : E4XNodeKind → Bool
  | .processingInstruction _ => true
  | _ => false

/-- Modelled from the spec: `E4XNode::matches_name` compares the local name (or
wildcard) and, if the multiname carries an explicit namespace, compares the
namespace too; attribute-ness must match the node's own kind. -/
def matchesName (st : St) (n : NodeId) (name : Multiname) : Bool :=
  let nd := st.node n
  (name.isAttr == isAttrKind nd.kind) &&
  (match name.localName with
   | none => true
   | some s => nd.localName == some s) &&
  (match name.ns with
   | .pubNs => true
   | .pkg uri => nd.ns == some uri)

/-- Modelled from the spec: `E4XNode::length` is the child count of an element
node and `None` for every other kind. -/
def nodeLength (st : St) (n : NodeId) : Option Nat :=
  match (st.node n).kind with
  | .element _ children => some children.length
  | _ => none

/-- Modelled from the spec: a node has simple content if it is Text/CData/
Attribute, or an Element whose children contain no nested Element. -/
def nodeHasSimpleContent (st : St) (n : NodeId) : Bool :=
  match (st.node n).kind with
  | .element _ children =>
      !(children.any fun c => isElementKind (st.node c).kind)
  | .text _ => true
  | .cdata _ => true
  | .attr _ => true
  | _ => false

/-- Modelled from the spec: content that is not simple is complex. -/
def nodeHasComplexContent (st : St) (n : NodeId) : Bool :=
  !(nodeHasSimpleContent st n)

/-- Modelled from the spec: `is_xml_name` validates a legal XML name: nonempty,
not starting with a digit, made of name characters. -/
def isXmlName (s : String) : Bool :=
  match s.toList with
  | [] => false
  | c :: rest =>
      (c.isAlpha || c = '_') &&
      rest.all (fun d => d.isAlphanum || d = '_' || d = '-' || d = '.')

def listInsertAt (l : List α) (i : Nat) (a : α) : List α :=
  l.take i ++ a :: l.drop i

/-- Clear the parent back-reference of every node in the list. -/
def clearParents (st : St) (ns : List NodeId) : St :=
  ns.foldl (fun st c => st.setNode c { st.node c with parent := none }) st

/-- Set the parent back-reference of every node in the list. -/
def setParents (st : St) (parent : NodeId) (ns : List NodeId) : St :=
  ns.foldl (fun st c => st.setNode c { st.node c with parent := some parent }) st

/-- Modelled from the spec: `E4XNode::insert_at` inserts a child node at the
given position of an element (setting its parent); a no-op on other kinds. -/
def insertAt (st : St) (x : NodeId) (i : Nat) (child : NodeId) : St :=
  let nd := st.node x
  match nd.kind with
  | .element attrs children =>
      let st := st.setNode child { st.node child with parent := some x }
      st.setNode x { st.node x with kind := .element attrs (listInsertAt children i child) }
  | _ => st

/-- Modelled from the spec: `E4XNode::remove_matching_children` removes every
child matching the multiname (clearing their parent links) and returns the
original index and node of the first match, to be reinserted at its original
position by the caller. -/
def removeMatchingChildren (st : St) (x : NodeId) (name : Multiname) :
    Option (Nat × NodeId) × St :=
  match (st.node x).kind with
  | .element attrs children =>
      let matched := (children.enum.filter fun p => matchesName st p.2 name)
      let keep := children.filter fun c => !(matchesName st c name)
      let st := clearParents st (matched.map Prod.snd)
      let st := st.setNode x { st.node x with kind := .element attrs keep }
      (matched.head?, st)
  | _ => (none, st)

/-- Modelled from the spec: `E4XNode::remove_all_children` detaches every child
of an element; a no-op on other kinds. -/
def removeAllChildren (st : St) (x : NodeId) : St :=
  match (st.node x).kind with
  | .element attrs children =>
      let st := clearParents st children
      st.setNode x { st.node x with kind := .element attrs [] }
  | _ => st

def setLocalName (st : St) (n : NodeId) (s : String) : St :=
  st.setNode n { st.node n with localName := some s }

def setNamespace (st : St) (n : NodeId) (u : String) : St :=
  st.setNode n { st.node n with ns := some u }

/-- Modelled from the spec: `E4XNode::attribute(name, value, parent)`. -/
def mkAttrNode (name : String) (value : String) (parent : Option NodeId) : E4XNode :=
  ⟨parent, some name, none, .attr value⟩

/-- Modelled from the spec: `E4XNode::text(value, parent)`. -/
def mkTextNode (value : String) (parent : Option NodeId) : E4XNode :=
  ⟨parent, none, none, .text value⟩

/-- Modelled from the spec: `E4XNode::element(ns, name, parent)`: a fresh empty
element. -/
def mkElementNode (ns : Option String) (name : String) (parent : Option NodeId) : E4XNode :=
  ⟨parent, some name, ns, .element [] []⟩

/-- Modelled from the spec: `E4XNode::dummy()`. -/
def dummyNode : E4XNode := ⟨none, none, none, .dummy⟩

mutual

/-- Modelled from the spec: `xml_to_string` concatenates the simple text
content of a node (used for `toString()` on simple content).  The fuel makes
the recursion total; a tree-shaped heap never exhausts it. -/
def xmlToString (fuel : Nat) (st : St) (n : NodeId) : String :=
  match fuel with
  | 0 => ""
  | f + 1 =>
    match (st.node n).kind with
    | .text s => s
    | .cdata s => s
    | .attr s => s
    | .element _ children => xmlToStringList f st children
    | _ => ""

def xmlToStringList (fuel : Nat) (st : St) (ns : List NodeId) : String :=
  match fuel with
  | 0 => ""
  | f + 1 =>
    match ns with
    | [] => ""
    | c :: rest => xmlToString f st c ++ xmlToStringList f st rest

end

mutual

/-- Modelled from the spec: `xml_to_xml_string` always serializes full XML
markup. -/
def xmlToXmlString (fuel : Nat) (st : St) (n : NodeId) : String :=
  match fuel with
  | 0 => ""
  | f + 1 =>
    match (st.node n).kind with
    | .text s => s
    | .cdata s => "<![CDATA[" ++ s ++ "]]>"
    | .attr s => s
    | .comment s => "<!--" ++ s ++ "-->"
    | .processingInstruction s => "<?" ++ s ++ "?>"
    | .dummy => ""
    | .element _ children =>
        let nm := ((st.node n).localName).getD ""
        "<" ++ nm ++ ">" ++ xmlToXmlStringList f st children ++ "</" ++ nm ++ ">"

def xmlToXmlStringList (fuel : Nat) (st : St) (ns : List NodeId) : String :=
  match fuel with
  | 0 => ""
  | f + 1 =>
    match ns with
    | [] => ""
    | c :: rest => xmlToXmlString f st c ++ xmlToXmlStringList f st rest

end

/-- Modelled from the spec: `Value::coerce_to_string`.  Strings are returned
unchanged; XML values stringify by the simple/complex dispatch. -/
def coerceToString (fuel : Nat) (st : St) : Value → String
  | .string s => s
  | .undefined => "undefined"
  | .null => "null"
  | .xmlObj o =>
      let n := (st.xml o).node
      if nodeHasSimpleContent st n then xmlToString fuel st n else xmlToXmlString fuel st n
  | .xmlListObj l =>
      (st.list l).children.foldl
        (fun acc c =>
          let n := entryNode st c
          acc ++ (if nodeHasSimpleContent st n then xmlToString fuel st n
                  else xmlToXmlString fuel st n))
        ""

mutual

/-- Modelled from the spec: `E4XNode::deep_copy` structurally clones a node;
parent links in the clone point to the clone's own ancestors. -/
def deepCopyNode (fuel : Nat) (parent : Option NodeId) (n : NodeId) (st : St) :
    NodeId × St :=
  match fuel with
  | 0 => st.newNode { dummyNode with parent := parent }
  | f + 1 =>
    let nd := st.node n
    match nd.kind with
    | .element attrs children =>
        let (cid, st) := st.newNode { nd with parent := parent, kind := .element [] [] }
        let (attrs', st) := deepCopyNodeList f (some cid) attrs st
        let (children', st) := deepCopyNodeList f (some cid) children st
        (cid, st.setNode cid { nd with parent := parent, kind := .element attrs' children' })
    | _ => st.newNode { nd with parent := parent }

def deepCopyNodeList (fuel : Nat) (parent : Option NodeId) (ns : List NodeId) (st : St) :
    List NodeId × St :=
  match fuel with
  | 0 => ([], st)
  | f + 1 =>
    match ns with
    | [] => ([], st)
    | c :: rest =>
        let (c', st) := deepCopyNode f parent c st
        let (rest', st) := deepCopyNodeList f parent rest st
        (c' :: rest', st)

end

/-- Modelled from the spec: `E4XNode::insert` (ECMA-357 [[Insert]]) splices the
value's node(s) into an element's children at the given position, setting
parent links; primitives are converted to a text node; a no-op on non-element
kinds. -/
def nodeInsert (fuel : Nat) (st : St) (x : NodeId) (j : Nat) (v : Value) :
    Except Err Unit × St :=
  match (st.node x).kind with
  | .element attrs children =>
      match v with
      | .xmlObj o =>
          let n := (st.xml o).node
          let st := st.setNode n { st.node n with parent := some x }
          (.ok (), st.setNode x { st.node x with kind := .element attrs (listInsertAt children j n) })
      | .xmlListObj l =>
          let nodes := (st.list l).children.map (entryNode st)
          let st := setParents st x nodes
          (.ok (), st.setNode x
            { st.node x with kind := .element attrs (children.take j ++ nodes ++ children.drop j) })
      | v =>
          let s := coerceToString fuel st v
          let (tid, st) := st.newNode (mkTextNode s (some x))
          (.ok (), st.setNode x { st.node x with kind := .element attrs (listInsertAt children j tid) })
  | _ => (.ok (), st)

/-- Modelled from the spec: `E4XNode::replace` (ECMA-357 [[Replace]]) replaces
the child at the given position of an element (appending when the position is
at or beyond the end), detaching the replaced child and attaching the new
content; primitives become a text node; a no-op on non-element kinds. -/
def nodeReplace (fuel : Nat) (st : St) (x : NodeId) (i : Nat) (v : Value) :
    Except Err Unit × St :=
  match (st.node x).kind with
  | .element attrs children =>
      match v with
      | .xmlObj o =>
          let n := (st.xml o).node
          match children[i]? with
          | some old =>
              let st := st.setNode old { st.node old with parent := none }
              let st := st.setNode n { st.node n with parent := some x }
              (.ok (), st.setNode x { st.node x with kind := .element attrs (children.set i n) })
          | none =>
              let st := st.setNode n { st.node n with parent := some x }
              (.ok (), st.setNode x { st.node x with kind := .element attrs (children ++ [n]) })
      | .xmlListObj l =>
          let nodes := (st.list l).children.map (entryNode st)
          let st := setParents st x nodes
          let st :=
            match children[i]? with
            | some old => st.setNode old { st.node old with parent := none }
            | none => st
          (.ok (), st.setNode x
            { st.node x with kind := .element attrs (children.take i ++ nodes ++ children.drop (i + 1)) })
      | v =>
          let s := coerceToString fuel st v
          let (tid, st) := st.newNode (mkTextNode s (some x))
          match children[i]? with
          | some old =>
              let st := st.setNode old { st.node old with parent := none }
              (.ok (), st.setNode x { st.node x with kind := .element attrs (children.set i tid) })
          | none =>
              (.ok (), st.setNode x { st.node x with kind := .element attrs (children ++ [tid]) })
  | _ => (.ok (), st)

/-- `XmlListObject::xml_object_child`: materialize the child at the index in
place and return it. -/
def xmlObjectChild (l : ListId) (i : Nat) (st : St) : Option XmlId × St :=
  let d := st.list l
  match d.children[i]? with
  | none => (none, st)
  | some c =>
      let (o, st) := getOrCreateXml st c
      (some o, st.setList l { d with children := d.children.set i (.xml o) })

/-- `XmlListObject::reevaluate_target_object`: when the list is dirty and
non-empty, recompute the target object from the last child's current parent and
the target property from its name, then clear the dirty flag. -/
def reevaluateTargetObject (l : ListId) (st : St) : St :=
  let d := st.list l
  if d.targetDirty then
    match d.children.getLast? with
    | none => st
    | some lastEntry =>
        let lastNode := entryNode st lastEntry
        let (tobj, st) :=
          match (st.node lastNode).parent with
          | none => (none, st)
          | some p =>
              match d.targetObject with
              | some (.xml t) =>
                  if (st.xml t).node ≠ p then
                    let (o, st) := st.newXml p
                    (some (XmlOrXmlList.xml o), st)
                  else (d.targetObject, st)
              | _ => (d.targetObject, st)
        let tprop :=
          if isPIKind (st.node lastNode).kind then d.targetProperty
          else
            match (st.node lastNode).localName with
            | some nm =>
                let ns := match (st.node lastNode).ns with
                  | some u => Ns.pkg u
                  | none => Ns.pubNs
                some (Multiname.mk' ns nm)
            | none => d.targetProperty
        st.setList l { d with targetObject := tobj, targetProperty := tprop, targetDirty := false }
  else st

/-- `XmlListObject::append` (ECMA-357 9.2.1.6 [[Append]]): an XMLList value
clears the dirty flag, absorbs the value's target bookkeeping and extends the
children; a bare XML value sets the dirty flag and pushes one child; any other
value leaves the list unchanged. -/
def appendList (l : ListId) (v : Value) (st : St) : St :=
  let d := st.list l
  match v with
  | .xmlListObj src =>
      st.setList l
        { d with
          targetDirty := false
          targetObject := (st.list src).targetObject
          targetProperty := (st.list src).targetProperty
          children := d.children ++ (st.list src).children }
  | .xmlObj x =>
      st.setList l { d with targetDirty := true, children := d.children ++ [.xml x] }
  | _ => st

/-- `XmlListObject::concat`: returns the other list when either side is empty;
otherwise builds a fresh, target-dirty list (via `new_dirty`) holding the
concatenated children with the target bookkeeping cleared. -/
def concatLists (left right : ListId) (st : St) : ListId × St :=
  if (st.list left).children.length = 0 then (right, st)
  else if (st.list right).children.length = 0 then (left, st)
  else st.newList ⟨(st.list left).children ++ (st.list right).children, none, none, true⟩

/-- `XmlListObject::get_next_enumerant`: one past the last index while children
remain, and the sentinel `0` (never the stop value `none`) once exhausted, so
enumeration never falls back to the prototype chain.  The `u32` increment is
taken modulo `2^32`. -/
def getNextEnumerant (l : ListId) (lastIndex : Nat) (st : St) : Option Nat :=
  if lastIndex < (st.list l).children.length then some ((lastIndex + 1) % 2 ^ 32)
  else some 0

/-- `XmlObject::get_property_local`: a plain numeric index returns `self` at
index `0` and `undefined` otherwise; any other name collects the matching
children (or attributes) into a fresh XMLList whose target object is `self`
and whose target property is the name. -/
def xmlGetPropertyLocal (o : XmlId) (name : Multiname) (st : St) : Value × St :=
  match (if name.hasExplicitNamespace then none else name.localName.bind parseUsize) with
  | some i => if i = 0 then (.xmlObj o, st) else (.undefined, st)
  | none =>
      let matched : List E4XOrXml :=
        match (st.node (st.xml o).node).kind with
        | .element attributes children =>
            ((if name.isAttr then attributes else children).filter
              (fun c => matchesName st c name)).map .e4x
        | _ => []
      let (lid, st) := st.newList ⟨matched, some (.xml o), some name, false⟩
      (.xmlListObj lid, st)

/-- Helper for `XmlListObject::get_property_local`: materialize each child in
place, query it, and flatten the per-child results. -/
def listGetPropChildren (name : Multiname) : List E4XOrXml → St →
    List E4XOrXml × List E4XOrXml × St
  | [], st => ([], [], st)
  | c :: rest, st =>
      let (o, st) := getOrCreateXml st c
      let (v, st) := xmlGetPropertyLocal o name st
      let part : List E4XOrXml :=
        match v with
        | .xmlObj x => [.xml x]
        | .xmlListObj pl => (st.list pl).children
        | _ => []
      let (parts, rest', st) := listGetPropChildren name rest st
      (part ++ parts, .xml o :: rest', st)

/-- `XmlListObject::get_property_local`: a plain numeric index returns the
materialized child at that position (or `undefined`); any other name collects
the children's matches into a fresh XMLList targeting `self` and the name. -/
def listGetPropertyLocal (l : ListId) (name : Multiname) (st : St) : Value × St :=
  match (if name.hasExplicitNamespace then none else name.localName.bind parseUsize) with
  | some i =>
      (match (st.list l).children[i]? with
       | some _ =>
           let (o, st) := xmlObjectChild l i st
           (match o with
            | some o => (.xmlObj o, st)
            | none => (.undefined, st))
       | none => (.undefined, st))
  | none =>
      let d := st.list l
      let (matched, newChildren, st) := listGetPropChildren name d.children st
      let st := st.setList l { d with children := newChildren }
      let (lid, st) := st.newList ⟨matched, some (.list l), some name, false⟩
      (.xmlListObj lid, st)

/-- `XmlOrXmlListObject::get_property_local`: dispatch on the object kind and
classify the resulting value (an unreachable non-XML result is embedded as the
internal panic). -/
def getPropertyLocalX (x : XmlOrXmlList) (name : Multiname) (st : St) :
    Except Err (Option XmlOrXmlList) × St :=
  let (v, st) :=
    match x with
    | .xml o => xmlGetPropertyLocal o name st
    | .list l => listGetPropertyLocal l name st
  match v with
  | .xmlObj o => (.ok (some (.xml o)), st)
  | .xmlListObj l => (.ok (some (.list l)), st)
  | .null => (.ok none, st)
  | .undefined => (.ok none, st)
  | _ => (.error (.internal "Invalid value, expected XmlListObject/XmlObject or a null value"), st)

/-- `XmlOrXmlListObject::length`: node length for an XML object, child count
for an XMLList. -/
def lengthX (st : St) : XmlOrXmlList → Option Nat
  | .xml o => nodeLength st (st.xml o).node
  | .list l => some (st.list l).children.length

/-- `XmlOrXmlListObject::as_object().into()`: the object as a value. -/
def valueOfX : XmlOrXmlList → Value
  | .xml o => .xmlObj o
  | .list l => .xmlListObj l

/-- `XmlObject::deep_copy`. -/
def xmlDeepCopy (fuel : Nat) (o : XmlId) (st : St) : XmlId × St :=
  let (n', st) := deepCopyNode fuel none (st.xml o).node st
  st.newXml n'

/-- Helper for `XmlListObject::deep_copy`: deep-copy every entry's node. -/
def deepCopyEntries (fuel : Nat) : List E4XOrXml → St → List E4XOrXml × St
  | [], st => ([], st)
  | c :: rest, st =>
      let (n', st) := deepCopyNode fuel none (entryNode st c) st
      let (rest', st) := deepCopyEntries fuel rest st
      (.e4x n' :: rest', st)

/-- `XmlListObject::deep_copy`: reevaluate the target, then clone every child
node into a fresh list carrying the (reevaluated) target bookkeeping. -/
def listDeepCopy (fuel : Nat) (l : ListId) (st : St) : ListId × St :=
  let st := reevaluateTargetObject l st
  let (children', st) := deepCopyEntries fuel (st.list l).children st
  st.newList ⟨children', (st.list l).targetObject, (st.list l).targetProperty, false⟩

/-- `XmlObject::delete_property_local`: a name with an explicit namespace is a
non-catchable internal error; a non-element receiver returns `false` without
changes; otherwise every matching attribute (for attribute names) or child is
detached and `true` is returned. -/
def xmlDeletePropertyLocal (o : XmlId) (name : Multiname) (st : St) :
    Except Err Bool × St :=
  if name.hasExplicitNamespace then
    (.error (.internal "Can not set property with an explicit namespace yet"), st)
  else
    let nid := (st.xml o).node
    match (st.node nid).kind with
    | .element attrs children =>
        if name.isAttr then
          let removed := attrs.filter fun c => matchesName st c name
          let keep := attrs.filter fun c => !(matchesName st c name)
          let st := clearParents st removed
          (.ok true, st.setNode nid { st.node nid with kind := .element keep children })
        else
          let removed := children.filter fun c => matchesName st c name
          let keep := children.filter fun c => !(matchesName st c name)
          let st := clearParents st removed
          (.ok true, st.setNode nid { st.node nid with kind := .element attrs keep })
    | _ => (.ok false, st)

/-- Modelled from the spec: the `XML` class constructor (`ToXML`): an XML
argument is copied; a primitive is converted to a node, modelled as a text
node holding the string coercion. -/
def xmlConstruct (fuel : Nat) (v : Value) (st : St) : XmlId × St :=
  match v with
  | .xmlObj o => xmlDeepCopy fuel o st
  | v =>
      let (nid, st) := st.newNode (mkTextNode (coerceToString fuel st v) none)
      st.newXml nid

/-- `XmlObject::set_property_local` (ECMA-357 9.1.1.2 [[Put]]): a numeric name
is the catchable error 1087; a non-element receiver returns unchanged;
XML/XMLList values are deep-copied; attribute names remove the old attribute
and append a fresh one; element names use the remove-and-reinsert strategy and
either a primitive assignment into a fresh placeholder element or a [[Replace]]
of the slot. -/
def xmlSetPropertyLocal (fuel : Nat) (o : XmlId) (name : Multiname) (value : Value) (st : St) :
    Except Err Unit × St :=
  -- 1. If ToString(ToUint32(P)) == P, throw a TypeError exception
  if (name.localName.bind parseUsize).isSome then (.error makeError1087, st)
  else
    let nid := (st.xml o).node
    -- 2. Non-element receivers ignore property writes
    if !(isElementKind (st.node nid).kind) then (.ok (), st)
    else
      -- 4.a. deep-copy XML/XMLList values (assignment never aliases)
      let (value, st) :=
        match value with
        | .xmlObj x =>
            let (x', st) := xmlDeepCopy fuel x st
            (Value.xmlObj x', st)
        | .xmlListObj ll =>
            let (ll', st) := listDeepCopy fuel ll st
            (Value.xmlListObj ll', st)
        | v => (v, st)
      -- 6. attribute names
      if name.isAttr then
        let (strVal, st) :=
          match value with
          | .xmlListObj ll =>
              (match (st.list ll).children with
               | [] => ("", st)
               | c :: rest =>
                   (rest.foldl (fun acc e => acc ++ " " ++ xmlToString fuel st (entryNode st e))
                     (xmlToString fuel st (entryNode st c)), st))
          | v => (coerceToString fuel st v, st)
        match xmlDeletePropertyLocal o name st with
        | (.error e, st) => (.error e, st)
        | (.ok _, st) =>
          match name.localName with
          | none => (.error (.internal "Cannot set attribute without a local name"), st)
          | some localName =>
            let (aid, st) := st.newNode (mkAttrNode localName strVal (some nid))
            match (st.node nid).kind with
            | .element attrs children =>
                (.ok (), st.setNode nid
                  { st.node nid with kind := .element (attrs ++ [aid]) children })
            | _ => (.ok (), st)
      else
      -- 7./8. name validation
      if !((name.localName.map isXmlName).getD false) && !name.isAnyName then (.ok (), st)
      else
      -- 10.
      let primitiveAssign :=
        (match value with
         | .xmlObj _ => false
         | .xmlListObj _ => false
         | _ => true) && !name.isAnyName
      -- 11./12. remove-and-reinsert, or append a fresh slot
      let (found, st) := removeMatchingChildren st nid name
      let (index, res, st) :=
        match found with
        | some (idx, node) => (idx, Except.ok (), insertAt st nid idx node)
        | none =>
          let index := (nodeLength st nid).getD 0
          let (did, st) := st.newNode dummyNode
          let st := insertAt st nid index did
          if primitiveAssign then
            let (eid, st) :=
              st.newNode (mkElementNode name.explictNamespace (name.localName.getD "") (some nid))
            let (xo, st) := st.newXml eid
            match nodeReplace fuel st nid index (.xmlObj xo) with
            | (.error e, st) => (index, Except.error e, st)
            | (.ok (), st) => (index, Except.ok (), st)
          else (index, Except.ok (), st)
      match res with
      | .error e => (.error e, st)
      | .ok () =>
        -- 13./14.
        if primitiveAssign then
          match (st.node nid).kind with
          | .element _ children =>
            (match children[index]? with
             | none => (.error (.internal "index out of range"), st)
             | some target =>
                let st := removeAllChildren st target
                let val := coerceToString fuel st value
                if val = "" then (.ok (), st)
                else nodeReplace fuel st target 0 value)
          | _ => (.error (.internal "Node should be of Element kind"), st)
        else nodeReplace fuel st nid index value

/-- The sibling-scan of step 2.c.viii.1.a of XMLList [[Put]]: walk the resolved
base's children up to the position after the previous entry's node (an empty
child list panics in the source through an out-of-range index). -/
def scanInsertPos (rchildren : List NodeId) (prev : NodeId) : Except Err Nat :=
  if rchildren.isEmpty then .error (.internal "index out of range")
  else
    .ok ((min ((rchildren.findIdx? (fun n => n == prev)).getD (rchildren.length - 1))
      (rchildren.length - 1)) + 1)

/-- Step 2.h of XMLList [[Put]] and the ends of steps 2.f/2.g: store the final
value at the list slot (wrapping a non-XML value through the `XML`
constructor). -/
def listSetNumericFinish (fuel : Nat) (l : ListId) (index : Nat) (value : Value) (st : St) :
    Except Err Unit × St :=
  match value with
  | .xmlObj vx =>
      (.ok (), st.setList l { st.list l with children := (st.list l).children.set index (.xml vx) })
  | v =>
      let (xid, st) := xmlConstruct fuel v st
      (.ok (), st.setList l { st.list l with children := (st.list l).children.set index (.xml xid) })

/-- Steps 2.d–2.h of XMLList [[Put]] for a numeric index: coerce text/attribute
content to a string, then dispatch on the kind of the existing slot and of the
value. -/
def listSetNumericTail (fuel : Nat) (l : ListId) (index : Nat) (value : Value) (st : St) :
    Except Err Unit × St :=
  -- 2.d
  let (value, st) : Value × St :=
    match value with
    | .xmlListObj vl =>
        if (st.list vl).children.length = 1 then
          let (xo, st) := xmlObjectChild vl 0 st
          match xo with
          | some xo =>
              (match (st.node (st.xml xo).node).kind with
               | .attr _ => (Value.string (coerceToString fuel st (.xmlObj xo)), st)
               | .text _ => (Value.string (coerceToString fuel st (.xmlObj xo)), st)
               | _ => (Value.xmlListObj vl, st))
          | none => (Value.xmlListObj vl, st)
        else (Value.xmlListObj vl, st)
    | .xmlObj vx =>
        (match (st.node (st.xml vx).node).kind with
         | .attr _ => (Value.string (coerceToString fuel st (.xmlObj vx)), st)
         | .text _ => (Value.string (coerceToString fuel st (.xmlObj vx)), st)
         | _ => (Value.xmlObj vx, st))
    | v => (Value.string (coerceToString fuel st v), st)
  match (st.list l).children[index]? with
  | none => (.error (.internal "index out of range"), st)
  | some childEntry =>
    let child := entryNode st childEntry
    match (st.node child).kind with
    | .attr _ =>
        -- 2.e: forward through the attribute's parent
        (match (st.node child).localName with
         | none => (.error (.internal "Attribute should have a name"), st)
         | some nm =>
           let z := Multiname.attrName .pubNs nm
           match (st.node child).parent with
           | none => (.ok (), st)
           | some p =>
               let (po, st) := st.newXml p
               match xmlSetPropertyLocal fuel po z value st with
               | (.error e, st) => (.error e, st)
               | (.ok (), st) =>
                 let (av, st) := xmlGetPropertyLocal po z st
                 match av with
                 | .xmlListObj al =>
                     (match (st.list al).children[0]? with
                      | none => (.error (.internal "index out of range"), st)
                      | some a0 =>
                          (.ok (), st.setList l
                            { st.list l with children := (st.list l).children.set index a0 }))
                 | _ =>
                     (.error (.internal "XmlObject get_property_local should return XmlListObject"),
                       st))
    | childKind =>
      match value with
      | .xmlListObj vl =>
          -- 2.f: splice a shallow copy through the parent's [[Replace]]
          let (c, st) := st.newList
            ⟨(st.list vl).children, (st.list vl).targetObject, (st.list vl).targetProperty, false⟩
          (match (st.node child).parent with
           | none => (.ok (), st)
           | some p =>
             let q :=
               match (st.node p).kind with
               | .element _ pchildren => pchildren.findIdx? (fun n => n == child)
               | _ => none
             let (res, st) :=
               match q with
               | some qi =>
                   (match nodeReplace fuel st p qi (.xmlListObj c) with
                    | (.error e, st) => (Except.error e, st)
                    | (.ok (), st) =>
                        (match (st.node p).kind with
                         | .element _ pchildren =>
                             let cnt := (st.list c).children.length
                             -- indices q+j are in range by the shape of [[Replace]]
                             let newC := (List.range cnt).map
                               (fun j => E4XOrXml.e4x (pchildren.getD (qi + j) 0))
                             (Except.ok (), st.setList c { st.list c with children := newC })
                         | _ => (Except.error (.internal "unreachable"), st)))
               | none => (Except.ok (), st)
             match res with
             | .error e => (.error e, st)
             | .ok () =>
               let d := st.list l
               let newChildren :=
                 d.children.take index ++ (st.list c).children ++ d.children.drop (index + 1)
               (.ok (), st.setList l { d with children := newChildren }))
      | _ =>
        if (match value with
            | .xmlObj _ => true
            | _ => false) ||
           (match childKind with
            | .text _ => true
            | .comment _ => true
            | .processingInstruction _ => true
            | .cdata _ => true
            | _ => false) then
          -- 2.g: replace through the parent, then store the replaced node
          match (st.node child).parent with
          | none => listSetNumericFinish fuel l index value st
          | some p =>
            let q :=
              match (st.node p).kind with
              | .element _ pchildren => pchildren.findIdx? (fun n => n == child)
              | _ => none
            match q with
            | none => listSetNumericFinish fuel l index value st
            | some qi =>
              match nodeReplace fuel st p qi value with
              | (.error e, st) => (.error e, st)
              | (.ok (), st) =>
                match (st.node p).kind with
                | .element _ pchildren =>
                    let (xo, st) := st.newXml (pchildren.getD qi 0)
                    listSetNumericFinish fuel l index (.xmlObj xo) st
                | _ => (.error (.internal "unreachable"), st)
        else
          -- 2.h: forward a [[Put]] of "*" to the slot's XML object
          let (xo, st) := xmlObjectChild l index st
          match xo with
          | none => (.error (.internal "index out of range"), st)
          | some xo => xmlSetPropertyLocal fuel xo Multiname.anyName value st

/-- Steps 2.c.vii–ix of XMLList [[Put]]: append the freshly built node `y`
(inserting it into the resolved base's children next to the previous sibling,
and renaming it after an XML/XMLList value), then continue with the tail. -/
def listSetNumericAppend (fuel : Nat) (l : ListId) (value : Value) (rNode : Option NodeId)
    (yid : NodeId) (st : St) : Except Err Unit × St :=
  -- 2.c.vii
  let index := (st.list l).children.length
  if !(isAttrKind (st.node yid).kind) then
    -- 2.c.viii.1
    let (res, st) :=
      match rNode with
      | some rn =>
        (match (st.node rn).kind with
         | .element _ rchildren =>
             let j :=
               if index > 0 then
                 scanInsertPos rchildren
                   (entryNode st (((st.list l).children.getD (index - 1) (.e4x 0))))
               else .ok rchildren.length
             (match j with
              | .error e => (Except.error e, st)
              | .ok j =>
                  let (yx, st) := st.newXml yid
                  nodeInsert fuel st rn j (.xmlObj yx))
         | _ => (Except.ok (), st))
      | none => (Except.ok (), st)
    match res with
    | .error e => (.error e, st)
    | .ok () =>
      -- 2.c.viii.2 / 2.c.viii.3
      let (res, st) :=
        match value with
        | .xmlObj vx =>
            (match (st.node (st.xml vx).node).localName with
             | some nm => (Except.ok (), setLocalName st yid nm)
             | none => (Except.error (Err.internal "Not validated yet"), st))
        | .xmlListObj vl =>
            (match (st.list vl).targetProperty with
             | none => (Except.error (Err.internal "Not validated yet"), st)
             | some tp2 =>
                 let st := match tp2.localName with
                   | some nm => setLocalName st yid nm
                   | none => st
                 let st := match tp2.explictNamespace with
                   | some u => setNamespace st yid u
                   | none => st
                 (Except.ok (), st))
        | _ => (Except.ok (), st)
      match res with
      | .error e => (.error e, st)
      | .ok () =>
        -- 2.c.ix
        let (yx, st) := st.newXml yid
        let st := appendList l (.xmlObj yx) st
        listSetNumericTail fuel l index value st
  else
    let (yx, st) := st.newXml yid
    let st := appendList l (.xmlObj yx) st
    listSetNumericTail fuel l index value st

/-- Steps 2.c.i–vi of XMLList [[Put]]: when the index is beyond the length,
check the resolved base and build the placeholder node `y` (attribute, text or
element, after the target property). -/
def listSetNumericExtend (fuel : Nat) (l : ListId) (value : Value) (r : Option XmlOrXmlList)
    (st : St) : Except Err Unit × St :=
  match
    (match r with
     | some (.xml x) => Sum.inl (some ((st.xml x).node))
     | some (.list x) =>
         if (st.list x).children.length ≠ 1 then Sum.inr ()
         else Sum.inl (some (entryNode st ((st.list x).children.getD 0 (.e4x 0))))
     | none => Sum.inl (none : Option NodeId)) with
  | Sum.inr () => (.ok (), st)
  | Sum.inl rNode =>
    -- 2.c.ii
    if (match rNode with
        | some rn => !(isElementKind (st.node rn).kind)
        | none => false) then (.ok (), st)
    else
      -- 2.c.iii–vi
      match (st.list l).targetProperty with
      | some tp =>
        if tp.isAttr then
          (match rNode with
           | none => (.error (.internal "called Option unwrap on a None value"), st)
           | some rn =>
             let (xo, st) := st.newXml rn
             let (av, st) := xmlGetPropertyLocal xo tp st
             let attrExists :=
               match av with
               | .xmlListObj al => decide ((st.list al).children.length > 0)
               | _ => false
             if attrExists then (.ok (), st)
             else
               match tp.localName with
               | none => (.error (.internal "called Option unwrap on a None value"), st)
               | some ln =>
                 let (yid, st) := st.newNode (mkAttrNode ln "" rNode)
                 listSetNumericAppend fuel l value rNode yid st)
        else if tp.isAnyName then
          let (yid, st) := st.newNode (mkTextNode "" rNode)
          listSetNumericAppend fuel l value rNode yid st
        else
          match tp.localName with
          | none => (.error (.internal "Local name should exist"), st)
          | some ln =>
            let (yid, st) := st.newNode (mkElementNode tp.explictNamespace ln rNode)
            listSetNumericAppend fuel l value rNode yid st
      | none =>
        let (yid, st) := st.newNode (mkTextNode "" rNode)
        listSetNumericAppend fuel l value rNode yid st

/-- Step 2.c dispatch of XMLList [[Put]] for a numeric index. -/
def listSetNumeric (fuel : Nat) (l : ListId) (index0 : Nat) (value : Value)
    (r : Option XmlOrXmlList) (st : St) : Except Err Unit × St :=
  if index0 ≥ (st.list l).children.length then listSetNumericExtend fuel l value r st
  else listSetNumericTail fuel l index0 value st

/-- Step 3.b of XMLList [[Put]]: forward the write to the sole child's XML
object (materializing it in place). -/
def listSetForward (fuel : Nat) (l : ListId) (name : Multiname) (value : Value) (st : St) :
    Except Err Unit × St :=
  match (st.list l).children[0]? with
  | none => (.error (.internal "index out of range"), st)
  | some c =>
      let (o, st) := getOrCreateXml st c
      let st := st.setList l { st.list l with children := (st.list l).children.set 0 (.xml o) }
      xmlSetPropertyLocal fuel o name value st

mutual

/-- `XmlListObject::resolve_value` (ECMA-357 9.2.1.10 [[ResolveValue]]): a
non-empty list resolves to itself; an empty list resolves through its target
bookkeeping, materializing an empty string at the target property when the
fetch comes back empty (error 1089 when the base is a multi-item list). -/
def listResolveValue (fuel : Nat) (l : ListId) (st : St) :
    Except Err (Option XmlOrXmlList) × St :=
  match fuel with
  | 0 => (.error .outOfFuel, st)
  | f + 1 =>
    -- 1.
    if (st.list l).children.length > 0 then (.ok (some (.list l)), st)
    else
      let st := reevaluateTargetObject l st
      -- 2.a
      match (st.list l).targetObject with
      | none => (.ok none, st)
      | some targetObject =>
        match (st.list l).targetProperty with
        | none => (.ok none, st)
        | some targetProperty =>
          if targetProperty.isAttr || targetProperty.isAnyName then (.ok none, st)
          else
            -- 2.b/2.c: recursively resolve the target object
            match
              (match targetObject with
               | .xml o => (Except.ok (some (XmlOrXmlList.xml o)), st)
               | .list tl => listResolveValue f tl st) with
            | (.error e, st) => (.error e, st)
            | (.ok none, st) => (.ok none, st)
            | (.ok (some base), st) =>
              -- 2.d
              match getPropertyLocalX base targetProperty st with
              | (.error e, st) => (.error e, st)
              | (.ok none, st) => (.ok none, st)
              | (.ok (some target), st) =>
                -- 2.e
                if (lengthX st target).getD 0 = 0 then
                  if (match base with
                      | .list b => decide ((st.list b).children.length > 1)
                      | _ => false) then
                    (.error makeError1089, st)
                  else
                    match
                      (match base with
                       | .xml o => xmlSetPropertyLocal f o targetProperty (.string "") st
                       | .list bl => listSetPropertyLocal f bl targetProperty (.string "") st) with
                    | (.error e, st) => (.error e, st)
                    | (.ok (), st) => getPropertyLocalX base targetProperty st
                -- 2.f
                else (.ok (some target), st)

/-- `XmlListObject::set_property_local` (ECMA-357 9.2.1.2 [[Put]]): a numeric
index resolves the target and goes through the extend/tail machinery; a
non-numeric name forwards to the sole child after materializing via
[[ResolveValue]], and is the catchable error 1089 on a multi-item list. -/
def listSetPropertyLocal (fuel : Nat) (l : ListId) (name : Multiname) (value : Value) (st : St) :
    Except Err Unit × St :=
  match fuel with
  | 0 => (.error .outOfFuel, st)
  | f + 1 =>
    -- 1./2.
    match (if !name.isAnyName && !name.isAttr then name.localName.bind parseUsize else none) with
    | some index0 =>
      let st := reevaluateTargetObject l st
      -- 2.a/2.b
      match (st.list l).targetObject with
      | some target =>
        match
          (match target with
           | .xml o => (Except.ok (some (XmlOrXmlList.xml o)), st)
           | .list tl => listResolveValue f tl st) with
        | (.error e, st) => (.error e, st)
        | (.ok none, st) => (.ok (), st)
        | (.ok (some r), st) => listSetNumeric f l index0 value (some r) st
      | none => listSetNumeric f l index0 value none st
    | none =>
      -- 3.
      if (st.list l).children.length ≤ 1 then
        if (st.list l).children.length = 0 then
          -- 3.a
          match listResolveValue f l st with
          | (.error e, st) => (.error e, st)
          | (.ok none, st) => (.ok (), st)
          | (.ok (some r), st) =>
            if (lengthX st r).getD 0 ≠ 1 then (.ok (), st)
            else
              let st := appendList l (valueOfX r) st
              listSetForward f l name value st
        else listSetForward f l name value st
      -- 4.
      else (.error makeError1089, st)

end

/-- `XmlOrXmlListObject::resolve_value`: an XML object resolves to itself; an
XMLList goes through [[ResolveValue]]. -/
def resolveValueX (fuel : Nat) (x : XmlOrXmlList) (st : St) :
    Except Err (Option XmlOrXmlList) × St :=
  match x with
  | .xml o => (.ok (some (.xml o)), st)
  | .list l => listResolveValue fuel l st

/-- `Object::set_property_local` restricted to the two XML object kinds. -/
def setPropertyLocalObj (fuel : Nat) (x : XmlOrXmlList) (name : Multiname) (v : Value) (st : St) :
    Except Err Unit × St :=
  match x with
  | .xml o => xmlSetPropertyLocal fuel o name v st
  | .list l => listSetPropertyLocal fuel l name v st

/-- `has_complex_content_inner` (globals/xml_list.rs): empty lists are not
complex, singletons defer to the item, longer lists are complex exactly when
some direct member is an element node. -/
def hasComplexContentInner (st : St) (children : List E4XOrXml) : Bool :=
  match children with
  | [] => false
  | [child] => nodeHasComplexContent st (entryNode st child)
  | _ => children.any fun child => isElementKind (st.node (entryNode st child)).kind

/-- `has_simple_content_inner` (globals/xml_list.rs): empty lists are simple,
singletons defer to the item, longer lists are simple exactly when no direct
member is an element node. -/
def hasSimpleContentInner (st : St) (children : List E4XOrXml) : Bool :=
  match children with
  | [] => true
  | [child] => nodeHasSimpleContent st (entryNode st child)
  | _ => children.all fun child => !(isElementKind (st.node (entryNode st child)).kind)

/-- `SocketKind`: the VM-side target of a connection. -/
inductive SocketKind where
  | avm2Socket (obj : Nat)
  | avm2XmlSocket (obj : Nat)
deriving DecidableEq

def SocketKind.obj : SocketKind → Nat
  | .avm2Socket o => o
  | .avm2XmlSocket o => o

/-- A `Socket` table entry: the target and the outgoing-bytes channel (the
sender side is modelled by the list of messages pushed so far; dropping the
sender is modelled by removing the entry). -/
structure SocketEntry where
  target : SocketKind
  sent : List (List Nat)
deriving DecidableEq

/-- `SocketHandle`: a generational-arena index (slot index, generation). -/
abbrev Handle := Nat × Nat

inductive ConnState where
  | connected
  | failed
  | timedOut
deriving DecidableEq

/-- `SocketAction`: what the transport reports back through the shared
channel. -/
inductive SocketAction where
  | connectAct (h : Handle) (cs : ConnState)
  | dataAct (h : Handle) (bytes : List Nat)
  | closeAct (h : Handle)
deriving DecidableEq

def SocketAction.handle : SocketAction → Handle
  | .connectAct h _ => h
  | .dataAct h _ => h
  | .closeAct h => h

/-- The scripting-visible events `update_sockets` dispatches. -/
inductive SocketEvent where
  | connectEvt (obj : Nat)
  | ioErrorEvt (obj : Nat)
  | socketDataEvt (obj : Nat) (bytesLoaded : Nat)
  | closeEvt (obj : Nat)
deriving DecidableEq

/-- Modelled from the spec (and from the in-tree `XmlSocketObject`): a socket
target object holds an optional current handle and a read buffer;
`set_handle` replaces the handle and returns the previous one. -/
structure SockObj where
  handle : Option Handle
  readBuffer : List Nat
deriving DecidableEq

instance : Inhabited SockObj := ⟨⟨none, []⟩⟩

/-- The `Sockets` registry: the generational arena of entries, the queued
incoming actions (the receiver side of the shared channel), and the heap of
socket target objects. -/
structure SockSt where
  slots : List (Nat × Option SocketEntry)
  queue : List SocketAction
  objs : List SockObj
deriving DecidableEq

/-- Modelled from the generational arena: a handle resolves only while its
slot holds an entry of the same generation. -/
def arenaGet : List (Nat × Option SocketEntry) → Handle → Option SocketEntry
  | [], _ => none
  | (g, e) :: rest, h =>
      match h.1 with
      | 0 =>
          (match e with
           | some e => if g = h.2 then some e else none
           | none => none)
      | i + 1 => arenaGet rest (i, h.2)

/-- Modelled from the generational arena: insert into the first free slot,
bumping its generation (or grow the table), so the returned handle never
collides with a live one. -/
def arenaInsert (e : SocketEntry) :
    List (Nat × Option SocketEntry) → Handle × List (Nat × Option SocketEntry)
  | [] => ((0, 0), [(0, some e)])
  | (g, none) :: rest => ((0, g + 1), (g + 1, some e) :: rest)
  | s :: rest =>
      let (h, rest') := arenaInsert e rest
      ((h.1 + 1, h.2), s :: rest')

/-- Modelled from the generational arena: remove frees the slot (keeping the
generation); removing an absent handle changes nothing. -/
def arenaRemove : Handle → List (Nat × Option SocketEntry) → List (Nat × Option SocketEntry)
  | _, [] => []
  | h, (g, e) :: rest =>
      match h.1 with
      | 0 =>
          (match e with
           | some e' => if g = h.2 then (g, none) :: rest else (g, some e') :: rest
           | none => (g, none) :: rest)
      | i + 1 => (g, e) :: arenaRemove (i, h.2) rest

/-- Modelled from the generational arena: update a live entry in place. -/
def arenaUpdate : Handle → SocketEntry → List (Nat × Option SocketEntry) →
    List (Nat × Option SocketEntry)
  | _, _, [] => []
  | h, v, (g, e) :: rest =>
      match h.1 with
      | 0 =>
          (match e with
           | some e' => if g = h.2 then (g, some v) :: rest else (g, some e') :: rest
           | none => (g, none) :: rest)
      | i + 1 => (g, e) :: arenaUpdate (i, h.2) v rest

/-- `Sockets::is_connected`. -/
def isConnectedSock (st : SockSt) (h : Handle) : Bool :=
  (arenaGet st.slots h).isSome

/-- `Sockets::send`: push the bytes onto the connection's outgoing channel;
silently drop them when the handle is stale. -/
def sendSock (st : SockSt) (h : Handle) (data : List Nat) : SockSt :=
  match arenaGet st.slots h with
  | some e => { st with slots := arenaUpdate h { e with sent := e.sent ++ [data] } st.slots }
  | none => st

/-- `Sockets::close`: remove the table entry (dropping the outgoing sender,
which terminates the transport's write task); idempotent. -/
def closeSock (st : SockSt) (h : Handle) : SockSt :=
  { st with slots := arenaRemove h st.slots }

/-- `Sockets::connect_avm2`: allocate a handle and table entry for the target
object, hand the connection to the backend transport (external), store the new
handle on the object, and close the object's previous connection if it held
one.  (`SocketObject::set_handle` is modelled from the spec: replace and
return the previous handle.) -/
def connectAvm2 (st : SockSt) (obj : Nat) (_host : String) (_port : Nat) : SockSt :=
  let (h, slots) := arenaInsert ⟨.avm2Socket obj, []⟩ st.slots
  let old := (st.objs.getD obj default).handle
  let objs := st.objs.set obj { st.objs.getD obj default with handle := some h }
  let st := { st with slots := slots, objs := objs }
  match old with
  | some existingHandle => closeSock st existingHandle
  | none => st

/-- One action of `Sockets::update_sockets`: an action whose handle is no
longer in the table is dropped without dispatching; otherwise the matching
scripting event is dispatched (`todo!()` arms of the source are embedded as
internal errors). -/
def processAction (st : SockSt) (a : SocketAction) : Except Err (SockSt × List SocketEvent) :=
  match arenaGet st.slots a.handle with
  | none => .ok (st, [])
  | some entry =>
    match a with
    | .connectAct _ .connected => .ok (st, [.connectEvt entry.target.obj])
    | .connectAct _ .failed =>
        (match entry.target with
         | .avm2Socket o => .ok (st, [.ioErrorEvt o])
         | .avm2XmlSocket _ => .error (.internal "not yet implemented"))
    | .connectAct _ .timedOut =>
        (match entry.target with
         | .avm2Socket o => .ok (st, [.ioErrorEvt o])
         | .avm2XmlSocket _ => .error (.internal "not yet implemented"))
    | .dataAct _ bytes =>
        (match entry.target with
         | .avm2Socket o =>
             let ob := st.objs.getD o default
             .ok ({ st with objs := st.objs.set o { ob with readBuffer := ob.readBuffer ++ bytes } },
               [.socketDataEvt o bytes.length])
         | .avm2XmlSocket _ => .error (.internal "not yet implemented"))
    | .closeAct _ => .ok (st, [.closeEvt entry.target.obj])

/-- Process a drained batch of actions in order. -/
def updateActions (st : SockSt) : List SocketAction → Except Err (SockSt × List SocketEvent)
  | [] => .ok (st, [])
  | a :: rest =>
      match processAction st a with
      | .error e => .error e
      | .ok (st, evts) =>
          match updateActions st rest with
          | .error e => .error e
          | .ok (st', evts') => .ok (st', evts ++ evts')

/-- `Sockets::update_sockets`: drain every queued action, then dispatch each
in order. -/
def updateSockets (st : SockSt) : Except Err (SockSt × List SocketEvent) :=
  updateActions { st with queue := [] } st.queue

/-! Helper lemmas about the state heaps. -/

lemma default_listData_children : (default : ListData).children = [] := rfl

lemma default_listData_dirty : (default : ListData).targetDirty = false := rfl

lemma st_list_setList_self (st : St) (l : ListId) (d : ListData) (h : l < st.lists.length) :
    (st.setList l d).list l = d := by
  simp [St.setList, St.list, List.getD_eq_getElem?_getD, List.getElem?_set_self h]

lemma st_list_dirty_lt (st : St) (l : ListId) (h : (st.list l).targetDirty = true) :
    l < st.lists.length := by
  by_contra hl
  push_neg at hl
  rw [St.list, List.getD_eq_getElem?_getD, List.getElem?_eq_none hl] at h
  simp [default_listData_dirty] at h

lemma st_newXml_lists (st : St) (n : NodeId) : ((st.newXml n).2).lists = st.lists := rfl

lemma st_newXml_node (st : St) (p n : NodeId) : ((st.newXml p).2).node n = st.node n := rfl

lemma reevaluate_of_not_dirty (st : St) (l : ListId) (h : (st.list l).targetDirty = false) :
    reevaluateTargetObject l st = st := by
  simp [reevaluateTargetObject, h]

lemma reevaluate_of_empty (st : St) (l : ListId) (h : (st.list l).children = []) :
    reevaluateTargetObject l st = st := by
  simp [reevaluateTargetObject, h]

/-- C2: on `XmlObject::set_property_local`, a plain numeric local name raises
the catchable error 1087 with the state untouched, and a non-numeric name on a
non-element node returns successfully without modifying anything. -/
theorem c2_xml_set_property_guards :
    (∀ (fuel : Nat) (o : XmlId) (name : Multiname) (v : Value) (st : St) (s : String),
      name.localName = some s → (parseUsize s).isSome = true →
      xmlSetPropertyLocal fuel o name v st = (.error makeError1087, st)) ∧
    (∀ (fuel : Nat) (o : XmlId) (name : Multiname) (v : Value) (st : St),
      name.localName.bind parseUsize = none →
      isElementKind (st.node (st.xml o).node).kind = false →
      xmlSetPropertyLocal fuel o name v st = (.ok (), st)) := by
  constructor
  · intro fuel o name v st s h1 h2
    unfold xmlSetPropertyLocal
    rw [if_pos (by rw [h1, Option.some_bind]; exact h2)]
  · intro fuel o name v st h1 h2
    unfold xmlSetPropertyLocal
    rw [if_neg (by rw [h1]; simp)]
    simp only [h2, Bool.not_false, if_true]

/-- Witness for C2 at concrete inputs: a numeric write on a text-node XML
errors with code 1087, and a named write on it is a silent no-op. -/
theorem c2_xml_set_property_guards_witness :
    xmlSetPropertyLocal 5 0 ⟨some "0", .pubNs, false⟩ (.string "v")
        ⟨[⟨none, none, none, .text "hello"⟩], [⟨0⟩], []⟩ =
      (.error makeError1087, ⟨[⟨none, none, none, .text "hello"⟩], [⟨0⟩], []⟩) ∧
    xmlSetPropertyLocal 5 0 ⟨some "b", .pubNs, false⟩ (.string "v")
        ⟨[⟨none, none, none, .text "hello"⟩], [⟨0⟩], []⟩ =
      (.ok (), ⟨[⟨none, none, none, .text "hello"⟩], [⟨0⟩], []⟩) :=
  ⟨c2_xml_set_property_guards.1 5 0 _ _ _ "0" rfl (by decide),
   c2_xml_set_property_guards.2 5 0 _ _ _ (by decide) (by decide)⟩

/-- C3: on `XmlListObject::set_property_local`, a multiname whose local name is
not a numeric index, applied to a list of more than one child, is the catchable
error 1089 for every value, with the state untouched. -/
theorem c3_list_put_multi_item_error :
    ∀ (fuel : Nat) (l : ListId) (name : Multiname) (value : Value) (st : St),
      name.localName.bind parseUsize = none →
      1 < (st.list l).children.length →
      listSetPropertyLocal (fuel + 1) l name value st = (.error makeError1089, st) := by
  intro fuel l name value st h1 h2
  simp only [listSetPropertyLocal, h1, ite_self]
  rw [if_neg (by omega)]

/-- Witness for C3: a two-element list rejects a named write with error 1089. -/
theorem c3_list_put_multi_item_error_witness :
    listSetPropertyLocal 5 0 (Multiname.mk' .pubNs "b") (.string "v")
        ⟨[⟨none, some "x", none, .element [] []⟩, ⟨none, some "y", none, .element [] []⟩], [],
          [⟨[.e4x 0, .e4x 1], none, none, false⟩]⟩ =
      (.error makeError1089,
        ⟨[⟨none, some "x", none, .element [] []⟩, ⟨none, some "y", none, .element [] []⟩], [],
          [⟨[.e4x 0, .e4x 1], none, none, false⟩]⟩) :=
  c3_list_put_multi_item_error 4 0 _ _ _ (by decide) (by decide)

/-- C6: `has_simple_content_inner` is true on the empty list, defers to the
item's node classification on singletons, and on longer lists is true exactly
when no direct member is an element; `has_complex_content_inner` is the dual. -/
theorem c6_simple_content :
    (∀ st : St, hasSimpleContentInner st [] = true) ∧
    (∀ (st : St) (c : E4XOrXml),
      hasSimpleContentInner st [c] = nodeHasSimpleContent st (entryNode st c)) ∧
    (∀ (st : St) (cs : List E4XOrXml), 2 ≤ cs.length →
      (hasSimpleContentInner st cs = true ↔
        ∀ c ∈ cs, isElementKind (st.node (entryNode st c)).kind = false)) ∧
    (∀ st : St, hasComplexContentInner st [] = false) ∧
    (∀ (st : St) (c : E4XOrXml),
      hasComplexContentInner st [c] = nodeHasComplexContent st (entryNode st c)) ∧
    (∀ (st : St) (cs : List E4XOrXml), 2 ≤ cs.length →
      (hasComplexContentInner st cs = true ↔
        ∃ c ∈ cs, isElementKind (st.node (entryNode st c)).kind = true)) := by
  refine ⟨fun st => rfl, fun st c => rfl, ?_, fun st => rfl, fun st c => rfl, ?_⟩
  · intro st cs hlen
    match cs with
    | [] => simp at hlen
    | [c] => simp at hlen
    | a :: b :: rest =>
        simp [hasSimpleContentInner, List.all_eq_true]
  · intro st cs hlen
    match cs with
    | [] => simp at hlen
    | [c] => simp at hlen
    | a :: b :: rest =>
        simp [hasComplexContentInner, List.any_eq_true]

/-- Witness for C6: a two-element list with one element-kind member has complex
content, and a singleton text list has simple content. -/
theorem c6_simple_content_witness :
    (2 ≤ ([E4XOrXml.e4x 0, E4XOrXml.e4x 1] : List E4XOrXml).length ∧
      (hasSimpleContentInner
          ⟨[⟨none, some "x", none, .element [] []⟩, ⟨none, none, none, .text "t"⟩], [], []⟩
          [E4XOrXml.e4x 0, E4XOrXml.e4x 1] = true ↔
        ∀ c ∈ ([E4XOrXml.e4x 0, E4XOrXml.e4x 1] : List E4XOrXml),
          isElementKind
            ((⟨[⟨none, some "x", none, .element [] []⟩, ⟨none, none, none, .text "t"⟩], [], []⟩ :
              St).node (entryNode
                ⟨[⟨none, some "x", none, .element [] []⟩, ⟨none, none, none, .text "t"⟩], [], []⟩
                c)).kind = false)) ∧
    hasSimpleContentInner ⟨[⟨none, none, none, .text "t"⟩], [], []⟩ [E4XOrXml.e4x 0] =
      nodeHasSimpleContent ⟨[⟨none, none, none, .text "t"⟩], [], []⟩ 0 :=
  ⟨⟨by decide, c6_simple_content.2.2.1 _ _ (by decide)⟩, c6_simple_content.2.1 _ _⟩

/-- C7: `XmlListObject::get_next_enumerant` returns `last_index + 1` while
positions remain, the sentinel `some 0` once exhausted, and never the stop
value `none`. -/
theorem c7_next_enumerant :
    (∀ (l : ListId) (i : Nat) (st : St),
      i < (st.list l).children.length → (st.list l).children.length < 2 ^ 32 →
      getNextEnumerant l i st = some (i + 1)) ∧
    (∀ (l : ListId) (i : Nat) (st : St),
      (st.list l).children.length ≤ i → getNextEnumerant l i st = some 0) ∧
    (∀ (l : ListId) (i : Nat) (st : St), getNextEnumerant l i st ≠ none) := by
  refine ⟨?_, ?_, ?_⟩
  · intro l i st h1 h2
    simp only [getNextEnumerant, h1, if_true]
    rw [Nat.mod_eq_of_lt (by omega)]
  · intro l i st h
    have hn : ¬(i < (st.list l).children.length) := by omega
    simp [getNextEnumerant, hn]
  · intro l i st
    unfold getNextEnumerant
    split <;> simp

/-- Witness for C7: on a one-child list, index 0 steps to 1 and index 1 wraps
to the sentinel 0. -/
theorem c7_next_enumerant_witness :
    getNextEnumerant 0 0 ⟨[], [], [⟨[.e4x 0], none, none, false⟩]⟩ = some 1 ∧
    getNextEnumerant 0 1 ⟨[], [], [⟨[.e4x 0], none, none, false⟩]⟩ = some 0 :=
  ⟨c7_next_enumerant.1 0 0 _ (by decide) (by decide),
   c7_next_enumerant.2.1 0 1 _ (by decide)⟩

/-- C10: `XmlObject::delete_property_local` on a multiname with an explicit
namespace is a non-catchable internal error (`Err.internal`, embedding
`Error::RustError`, never the catchable `Err.avm` kind) and removes nothing. -/
theorem c10_delete_explicit_namespace :
    ∀ (o : XmlId) (name : Multiname) (st : St),
      name.hasExplicitNamespace = true →
      xmlDeletePropertyLocal o name st =
        (.error (.internal "Can not set property with an explicit namespace yet"), st) := by
  intro o name st h
  simp [xmlDeletePropertyLocal, h]

/-- Witness for C10: deleting `ns::b` from an element errors internally and
leaves the tree alone. -/
theorem c10_delete_explicit_namespace_witness :
    xmlDeletePropertyLocal 0 (Multiname.mk' (.pkg "ns") "b")
        ⟨[⟨none, some "a", none, .element [] []⟩], [⟨0⟩], []⟩ =
      (.error (.internal "Can not set property with an explicit namespace yet"),
        ⟨[⟨none, some "a", none, .element [] []⟩], [⟨0⟩], []⟩) :=
  c10_delete_explicit_namespace 0 _ _ (by decide)

/-- C5 counterexample: with two distinct empty lists, `concat` returns the
right operand, so the claim's clause "if R is empty, concat(L, R) returns L
itself" fails at L = 0, R = 1 (the left-empty case wins and hands back R). -/
theorem c5_concat_counterexample :
    concatLists 0 1 ⟨[], [], [⟨[], none, none, false⟩, ⟨[], none, none, false⟩]⟩ =
      (1, ⟨[], [], [⟨[], none, none, false⟩, ⟨[], none, none, false⟩]⟩) ∧
    (1 : ListId) ≠ 0 ∧
    ((⟨[], [], [⟨[], none, none, false⟩, ⟨[], none, none, false⟩]⟩ : St).list 1).children = [] := by
  decide

/-- C5 (amended): `concat` returns R itself whenever L is empty (also when
both are empty), returns L itself when only R is empty, and otherwise returns
a freshly allocated list holding L's children followed by R's with the target
bookkeeping cleared. -/
theorem c5_concat_amended :
    (∀ (L R : ListId) (st : St), (st.list L).children.length = 0 →
      concatLists L R st = (R, st)) ∧
    (∀ (L R : ListId) (st : St), (st.list L).children.length ≠ 0 →
      (st.list R).children.length = 0 → concatLists L R st = (L, st)) ∧
    (∀ (L R : ListId) (st : St), (st.list L).children.length ≠ 0 →
      (st.list R).children.length ≠ 0 →
      concatLists L R st =
        (st.lists.length,
          { st with lists := st.lists ++
              [⟨(st.list L).children ++ (st.list R).children, none, none, true⟩] })) := by
  refine ⟨?_, ?_, ?_⟩
  · intro L R st h
    simp [concatLists, h]
  · intro L R st h1 h2
    simp [concatLists, h1, h2]
  · intro L R st h1 h2
    simp [concatLists, h1, h2, St.newList]

/-- Witness for C5 (amended) on concrete lists: empty-left hands back the
right list, empty-right hands back the left list, and two non-empty lists
build the fresh concatenation. -/
theorem c5_concat_amended_witness :
    concatLists 1 0
        ⟨[⟨none, none, none, .text "t"⟩], [],
          [⟨[.e4x 0], none, none, false⟩, ⟨[], none, none, false⟩, ⟨[.e4x 0], none, none, false⟩]⟩ =
      (0, ⟨[⟨none, none, none, .text "t"⟩], [],
          [⟨[.e4x 0], none, none, false⟩, ⟨[], none, none, false⟩, ⟨[.e4x 0], none, none, false⟩]⟩) ∧
    concatLists 0 1
        ⟨[⟨none, none, none, .text "t"⟩], [],
          [⟨[.e4x 0], none, none, false⟩, ⟨[], none, none, false⟩, ⟨[.e4x 0], none, none, false⟩]⟩ =
      (0, ⟨[⟨none, none, none, .text "t"⟩], [],
          [⟨[.e4x 0], none, none, false⟩, ⟨[], none, none, false⟩, ⟨[.e4x 0], none, none, false⟩]⟩) ∧
    concatLists 0 2
        ⟨[⟨none, none, none, .text "t"⟩], [],
          [⟨[.e4x 0], none, none, false⟩, ⟨[], none, none, false⟩, ⟨[.e4x 0], none, none, false⟩]⟩ =
      (3, ⟨[⟨none, none, none, .text "t"⟩], [],
          [⟨[.e4x 0], none, none, false⟩, ⟨[], none, none, false⟩, ⟨[.e4x 0], none, none, false⟩,
            ⟨[.e4x 0, .e4x 0], none, none, true⟩]⟩) :=
  ⟨c5_concat_amended.1 1 0 _ (by decide),
   c5_concat_amended.2.1 0 1 _ (by decide) (by decide),
   c5_concat_amended.2.2 0 2 _ (by decide) (by decide)⟩

/-- C4 counterexample: appending an XMLList value to a dirty list clears
`target_dirty` (and overwrites the bookkeeping) without any read of
`target_object`/`target_property` and without reevaluation, a Dirty → Clean
transition the claimed state machine does not contain. -/
theorem c4_target_dirty_counterexample :
    ((⟨[⟨none, some "x", none, .element [] []⟩], [],
        [⟨[.e4x 0], none, none, true⟩, ⟨[], none, none, false⟩]⟩ : St).list 0).targetDirty
        = true ∧
    ((appendList 0 (.xmlListObj 1)
        ⟨[⟨none, some "x", none, .element [] []⟩], [],
          [⟨[.e4x 0], none, none, true⟩, ⟨[], none, none, false⟩]⟩).list 0).targetDirty
        = false := by
  decide

/-- C4 (amended): appending a bare XML value sets `target_dirty` and pushes
the child; appending an XMLList value clears the flag and copies that list's
current bookkeeping verbatim (no reevaluation); `reevaluate_target_object`
clears the flag exactly when the list is dirty and non-empty — recomputing the
target object from the last child's current parent (clearing it when the child
is parentless) and the target property from the child's name — and leaves the
state unchanged when the list is clean or empty; plain reads of
`target_object`/`target_property` do not reevaluate. -/
theorem c4_target_dirty_amended :
    (∀ (l : ListId) (x : XmlId) (st : St),
      appendList l (.xmlObj x) st =
        st.setList l ⟨(st.list l).children ++ [.xml x], (st.list l).targetObject,
                      (st.list l).targetProperty, true⟩) ∧
    (∀ (l src : ListId) (st : St),
      appendList l (.xmlListObj src) st =
        st.setList l ⟨(st.list l).children ++ (st.list src).children,
                      (st.list src).targetObject, (st.list src).targetProperty, false⟩) ∧
    (∀ (l : ListId) (st : St), (st.list l).targetDirty = true →
      (st.list l).children ≠ [] →
      ((reevaluateTargetObject l st).list l).targetDirty = false) ∧
    (∀ (l : ListId) (st : St), (st.list l).targetDirty = false →
      reevaluateTargetObject l st = st) ∧
    (∀ (l : ListId) (st : St), (st.list l).children = [] →
      reevaluateTargetObject l st = st) ∧
    (∀ (l : ListId) (st : St) (e : E4XOrXml), (st.list l).targetDirty = true →
      (st.list l).children.getLast? = some e →
      (st.node (entryNode st e)).parent = none →
      ((reevaluateTargetObject l st).list l).targetObject = none) ∧
    (∀ (l : ListId) (st : St) (e : E4XOrXml) (nm : String),
      (st.list l).targetDirty = true →
      (st.list l).children.getLast? = some e →
      isPIKind (st.node (entryNode st e)).kind = false →
      (st.node (entryNode st e)).localName = some nm →
      ((reevaluateTargetObject l st).list l).targetProperty =
        some (Multiname.mk'
          (match (st.node (entryNode st e)).ns with
           | some u => Ns.pkg u
           | none => Ns.pubNs) nm)) := by
  refine ⟨fun l x st => rfl, fun l src st => rfl, ?_, ?_, ?_, ?_, ?_⟩
  · intro l st h1 h2
    have hlt := st_list_dirty_lt st l h1
    cases hgl : (st.list l).children.getLast? with
    | none => exact absurd (List.getLast?_eq_none_iff.mp hgl) h2
    | some e =>
      unfold reevaluateTargetObject
      simp only [h1, if_true, hgl]
      cases hp : (st.node (entryNode st e)).parent with
      | none =>
          simp only [hp]
          rw [st_list_setList_self st l _ hlt]
      | some p =>
          simp only [hp]
          cases hto : (st.list l).targetObject with
          | none =>
              simp only [hto]
              rw [st_list_setList_self st l _ hlt]
          | some x =>
              cases x with
              | xml t =>
                  simp only [hto]
                  by_cases hne : (st.xml t).node ≠ p
                  · simp only [if_pos hne]
                    rw [st_list_setList_self _ l _ (by simpa [st_newXml_lists] using hlt)]
                  · simp only [if_neg hne]
                    rw [st_list_setList_self st l _ hlt]
              | list t =>
                  simp only [hto]
                  rw [st_list_setList_self st l _ hlt]
  · intro l st h
    exact reevaluate_of_not_dirty st l h
  · intro l st h
    exact reevaluate_of_empty st l h
  · intro l st e h1 hgl hp
    have hlt := st_list_dirty_lt st l h1
    unfold reevaluateTargetObject
    simp only [h1, if_true, hgl, hp]
    rw [st_list_setList_self st l _ hlt]
  · intro l st e nm h1 hgl hk hn
    have hlt := st_list_dirty_lt st l h1
    unfold reevaluateTargetObject
    simp only [h1, if_true, hgl]
    cases hp : (st.node (entryNode st e)).parent with
    | none =>
        simp only [hp]
        rw [st_list_setList_self st l _ hlt]
        simp [hk, hn]
    | some p =>
        simp only [hp]
        cases hto : (st.list l).targetObject with
        | none =>
            simp only [hto]
            rw [st_list_setList_self st l _ hlt]
            simp [hk, hn]
        | some x =>
            cases x with
            | xml t =>
                simp only [hto]
                by_cases hne : (st.xml t).node ≠ p
                · simp only [if_pos hne]
                  rw [st_list_setList_self _ l _ (by simpa [st_newXml_lists] using hlt)]
                  simp [st_newXml_node, hk, hn]
                · simp only [if_neg hne]
                  rw [st_list_setList_self st l _ hlt]
                  simp [hk, hn]
            | list t =>
                simp only [hto]
                rw [st_list_setList_self st l _ hlt]
                simp [hk, hn]

/-- Witness for C4 (amended) on a concrete dirty one-child list: the bare
append marks it dirty, reevaluation clears the flag and recomputes the target
from the child's parent, and a clean list reevaluates to itself. -/
theorem c4_target_dirty_amended_witness :
    appendList 0 (.xmlObj 0)
        ⟨[⟨none, some "x", none, .element [] []⟩], [⟨0⟩], [⟨[], none, none, false⟩]⟩ =
      (⟨[⟨none, some "x", none, .element [] []⟩], [⟨0⟩], [⟨[], none, none, false⟩]⟩ : St).setList 0
        ⟨[.xml 0], none, none, true⟩ ∧
    ((reevaluateTargetObject 0
        ⟨[⟨none, some "x", none, .element [] []⟩], [],
          [⟨[.e4x 0], none, none, true⟩]⟩).list 0).targetDirty = false ∧
    ((reevaluateTargetObject 0
        ⟨[⟨none, some "x", none, .element [] []⟩], [],
          [⟨[.e4x 0], none, none, true⟩]⟩).list 0).targetObject = none ∧
    ((reevaluateTargetObject 0
        ⟨[⟨none, some "x", none, .element [] []⟩], [],
          [⟨[.e4x 0], none, none, true⟩]⟩).list 0).targetProperty =
      some (Multiname.mk' .pubNs "x") ∧
    reevaluateTargetObject 0
        ⟨[⟨none, some "x", none, .element [] []⟩], [], [⟨[.e4x 0], none, none, false⟩]⟩ =
      ⟨[⟨none, some "x", none, .element [] []⟩], [], [⟨[.e4x 0], none, none, false⟩]⟩ :=
  ⟨c4_target_dirty_amended.1 0 0 _,
   c4_target_dirty_amended.2.2.1 0 _ (by decide) (by decide),
   c4_target_dirty_amended.2.2.2.2.2.1 0 _ (.e4x 0) (by decide) (by decide) (by decide),
   c4_target_dirty_amended.2.2.2.2.2.2 0 _ (.e4x 0) "x" (by decide) (by decide) (by decide)
     (by decide),
   c4_target_dirty_amended.2.2.2.1 0 _ (by decide)⟩

/-! Lemmas about the generational arena. -/

lemma arenaRemove_of_get_none :
    ∀ (slots : List (Nat × Option SocketEntry)) (h : Handle),
      arenaGet slots h = none → arenaRemove h slots = slots := by
  intro slots
  induction slots with
  | nil => intro h _; rfl
  | cons s rest ih =>
      intro h hget
      obtain ⟨g, e⟩ := s
      obtain ⟨i, g2⟩ := h
      cases i with
      | zero =>
          cases e with
          | none => rfl
          | some e' =>
              by_cases hgg : g = g2
              · simp [arenaGet, hgg] at hget
              · simp [arenaRemove, hgg]
      | succ i =>
          have hget' : arenaGet rest (i, g2) = none := by simpa [arenaGet] using hget
          simp [arenaRemove, ih (i, g2) hget']

lemma arenaGet_remove_self :
    ∀ (slots : List (Nat × Option SocketEntry)) (h : Handle),
      arenaGet (arenaRemove h slots) h = none := by
  intro slots
  induction slots with
  | nil => intro h; rfl
  | cons s rest ih =>
      intro h
      obtain ⟨g, e⟩ := s
      obtain ⟨i, g2⟩ := h
      cases i with
      | zero =>
          cases e with
          | none => simp [arenaRemove, arenaGet]
          | some e' =>
              by_cases hgg : g = g2
              · simp [arenaRemove, hgg, arenaGet]
              · simp [arenaRemove, hgg, arenaGet, hgg]
      | succ i =>
          simpa [arenaRemove, arenaGet] using ih (i, g2)

lemma arenaGet_remove_other :
    ∀ (slots : List (Nat × Option SocketEntry)) (h h' : Handle), h' ≠ h →
      arenaGet (arenaRemove h slots) h' = arenaGet slots h' := by
  intro slots
  induction slots with
  | nil => intro h h' _; rfl
  | cons s rest ih =>
      intro h h' hne
      obtain ⟨g, e⟩ := s
      obtain ⟨i, g2⟩ := h
      obtain ⟨i', g2'⟩ := h'
      cases i with
      | zero =>
          cases e with
          | none =>
              cases i' <;> simp [arenaRemove, arenaGet]
          | some e' =>
              by_cases hgg : g = g2
              · cases i' with
                | zero =>
                    have hg2 : g2' ≠ g2 := fun hc => hne (by simp [hc])
                    simp [arenaRemove, hgg, arenaGet, Ne.symm hg2]
                | succ i' => simp [arenaRemove, hgg, arenaGet]
              · simp [arenaRemove, hgg]
      | succ i =>
          cases i' with
          | zero => simp [arenaRemove, arenaGet]
          | succ i' =>
              have hne' : ((i', g2') : Handle) ≠ (i, g2) := by
                intro hc
                exact hne (by simp at hc; simp [hc.1, hc.2])
              simpa [arenaRemove, arenaGet] using ih (i, g2) (i', g2') hne'

lemma arenaInsert_fresh :
    ∀ (slots : List (Nat × Option SocketEntry)) (e : SocketEntry),
      arenaGet slots (arenaInsert e slots).1 = none := by
  intro slots
  induction slots with
  | nil => intro e; rfl
  | cons s rest ih =>
      intro e
      obtain ⟨g, eo⟩ := s
      cases eo with
      | none => simp [arenaInsert, arenaGet]
      | some e' =>
          rcases hins : arenaInsert e rest with ⟨h, rest'⟩
          have := ih e
          rw [hins] at this
          simpa [arenaInsert, hins, arenaGet] using this

lemma arenaInsert_get_self :
    ∀ (slots : List (Nat × Option SocketEntry)) (e : SocketEntry),
      arenaGet (arenaInsert e slots).2 (arenaInsert e slots).1 = some e := by
  intro slots
  induction slots with
  | nil => intro e; rfl
  | cons s rest ih =>
      intro e
      obtain ⟨g, eo⟩ := s
      cases eo with
      | none => simp [arenaInsert, arenaGet]
      | some e' =>
          rcases hins : arenaInsert e rest with ⟨h, rest'⟩
          have := ih e
          rw [hins] at this
          simpa [arenaInsert, hins, arenaGet] using this

lemma arenaInsert_get_other :
    ∀ (slots : List (Nat × Option SocketEntry)) (e : SocketEntry) (h : Handle),
      h ≠ (arenaInsert e slots).1 →
      arenaGet (arenaInsert e slots).2 h = arenaGet slots h := by
  intro slots
  induction slots with
  | nil =>
      intro e h hne
      obtain ⟨i, g2⟩ := h
      cases i with
      | zero =>
          have : g2 ≠ 0 := fun hc => hne (by simp [arenaInsert, hc])
          simp [arenaInsert, arenaGet, Ne.symm this]
      | succ i => simp [arenaInsert, arenaGet]
  | cons s rest ih =>
      intro e h hne
      obtain ⟨g, eo⟩ := s
      obtain ⟨i, g2⟩ := h
      cases eo with
      | none =>
          cases i with
          | zero =>
              have : g2 ≠ g + 1 := fun hc => hne (by simp [arenaInsert, hc])
              simp [arenaInsert, arenaGet, Ne.symm this]
          | succ i => simp [arenaInsert, arenaGet]
      | some e' =>
          rcases hins : arenaInsert e rest with ⟨h0, rest'⟩
          cases i with
          | zero => simp [arenaInsert, hins, arenaGet]
          | succ i =>
              have hne' : ((i, g2) : Handle) ≠ h0 := by
                intro hc
                apply hne
                have h1 : (arenaInsert e ((g, some e') :: rest)).1 = (h0.1 + 1, h0.2) := by
                  simp [arenaInsert, hins]
                rw [h1, ← hc]
              have := ih e (i, g2) (by rw [hins]; exact hne')
              rw [hins] at this
              simpa [arenaInsert, hins, arenaGet] using this

/-- C9: a handle absent from the registry's table: `send` is a silent no-op,
`close` is a silent no-op (so closing twice is a no-op in general), and the
`update` loop drops a queued action referencing it without dispatching any
event; in all cases the table and every socket target stay unchanged. -/
theorem c9_stale_handle_noops :
    (∀ (st : SockSt) (h : Handle) (d : List Nat),
      arenaGet st.slots h = none → sendSock st h d = st) ∧
    (∀ (st : SockSt) (h : Handle),
      arenaGet st.slots h = none → closeSock st h = st) ∧
    (∀ (st : SockSt) (h : Handle), closeSock (closeSock st h) h = closeSock st h) ∧
    (∀ (st : SockSt) (a : SocketAction),
      arenaGet st.slots a.handle = none → processAction st a = .ok (st, [])) := by
  refine ⟨?_, ?_, ?_, ?_⟩
  · intro st h d hget
    simp [sendSock, hget]
  · intro st h hget
    simp [closeSock, arenaRemove_of_get_none _ _ hget]
  · intro st h
    have hr : arenaRemove h (arenaRemove h st.slots) = arenaRemove h st.slots :=
      arenaRemove_of_get_none _ _ (arenaGet_remove_self st.slots h)
    simp [closeSock, hr]
  · intro st a hget
    simp [processAction, hget]

/-- Witness for C9 at a concrete stale handle on a non-empty registry. -/
theorem c9_stale_handle_noops_witness :
    sendSock ⟨[(0, some ⟨.avm2Socket 0, []⟩)], [], [⟨some (0, 0), []⟩]⟩ (0, 5) [1, 2] =
      ⟨[(0, some ⟨.avm2Socket 0, []⟩)], [], [⟨some (0, 0), []⟩]⟩ ∧
    closeSock ⟨[(0, some ⟨.avm2Socket 0, []⟩)], [], [⟨some (0, 0), []⟩]⟩ (0, 5) =
      ⟨[(0, some ⟨.avm2Socket 0, []⟩)], [], [⟨some (0, 0), []⟩]⟩ ∧
    processAction ⟨[(0, some ⟨.avm2Socket 0, []⟩)], [], [⟨some (0, 0), []⟩]⟩
        (.dataAct (0, 5) [9]) =
      .ok (⟨[(0, some ⟨.avm2Socket 0, []⟩)], [], [⟨some (0, 0), []⟩]⟩, []) :=
  ⟨c9_stale_handle_noops.1 _ (0, 5) [1, 2] (by decide),
   c9_stale_handle_noops.2.1 _ (0, 5) (by decide),
   c9_stale_handle_noops.2.2.2 _ (.dataAct (0, 5) [9]) (by decide)⟩

/-- C8: `connect` on a target object that already holds the live handle H1
closes H1 as a side effect of establishing the fresh handle H2: afterwards H2
is live with this object as target, H1 is gone, every live handle targeting
the object is H2, and the object's stored handle is H2. -/
theorem c8_connect_single_live_handle :
    ∀ (st : SockSt) (obj : Nat) (host : String) (port : Nat) (h1 : Handle)
      (e1 : SocketEntry),
      obj < st.objs.length →
      (st.objs.getD obj default).handle = some h1 →
      arenaGet st.slots h1 = some e1 →
      (∀ (h : Handle) (e : SocketEntry), arenaGet st.slots h = some e →
        e.target.obj = obj → h = h1) →
      arenaGet (connectAvm2 st obj host port).slots
          (arenaInsert ⟨.avm2Socket obj, []⟩ st.slots).1 = some ⟨.avm2Socket obj, []⟩ ∧
      arenaGet (connectAvm2 st obj host port).slots h1 = none ∧
      (∀ (h : Handle) (e : SocketEntry),
        arenaGet (connectAvm2 st obj host port).slots h = some e → e.target.obj = obj →
        h = (arenaInsert ⟨.avm2Socket obj, []⟩ st.slots).1) ∧
      ((connectAvm2 st obj host port).objs.getD obj default).handle =
        some (arenaInsert ⟨.avm2Socket obj, []⟩ st.slots).1 := by
  intro st obj host port h1 e1 hobjlen hhandle hlive hinv
  rcases hins : arenaInsert ⟨.avm2Socket obj, []⟩ st.slots with ⟨h2, slots'⟩
  have hhandle' : (st.objs[obj]?.getD default).handle = some h1 := by
    rw [← List.getD_eq_getElem?_getD]
    exact hhandle
  have hconn : connectAvm2 st obj host port =
      { st with slots := arenaRemove h1 slots',
                objs := st.objs.set obj
                  { st.objs.getD obj default with handle := some h2 } } := by
    simp [connectAvm2, hins, hhandle', closeSock]
  have hfresh : arenaGet st.slots h2 = none := by
    have := arenaInsert_fresh st.slots ⟨.avm2Socket obj, []⟩
    rwa [hins] at this
  have hne : h2 ≠ h1 := by
    intro he
    rw [he, hlive] at hfresh
    exact Option.noConfusion hfresh
  have hself : arenaGet slots' h2 = some ⟨.avm2Socket obj, []⟩ := by
    have := arenaInsert_get_self st.slots ⟨.avm2Socket obj, []⟩
    rwa [hins] at this
  have hother : ∀ h : Handle, h ≠ h2 → arenaGet slots' h = arenaGet st.slots h := by
    intro h hh
    have := arenaInsert_get_other st.slots ⟨.avm2Socket obj, []⟩ h (by rw [hins]; exact hh)
    rwa [hins] at this
  have hslots : (connectAvm2 st obj host port).slots = arenaRemove h1 slots' := by
    rw [hconn]
  have hobjs : (connectAvm2 st obj host port).objs =
      st.objs.set obj { st.objs.getD obj default with handle := some h2 } := by
    rw [hconn]
  refine ⟨?_, ?_, ?_, ?_⟩
  · rw [hslots]
    show arenaGet (arenaRemove h1 slots') h2 = some ⟨.avm2Socket obj, []⟩
    rw [arenaGet_remove_other _ _ _ hne, hself]
  · rw [hslots]
    exact arenaGet_remove_self slots' h1
  · intro h e hget hobj
    rw [hslots] at hget
    show h = h2
    by_cases hh1 : h = h1
    · rw [hh1] at hget
      rw [arenaGet_remove_self] at hget
      exact Option.noConfusion hget
    · rw [arenaGet_remove_other _ _ _ hh1] at hget
      by_cases hh2 : h = h2
      · exact hh2
      · rw [hother h hh2] at hget
        exact absurd (hinv h e hget hobj) hh1
  · rw [hobjs]
    show ((st.objs.set obj { st.objs.getD obj default with handle := some h2 }).getD obj
        default).handle = some h2
    rw [List.getD_eq_getElem?_getD, List.getElem?_set_self hobjlen]
    rfl

/-- Witness for C8: one live connection (handle (0,0)) on object 0; `connect`
allocates handle (1,0), closes (0,0), and leaves (1,0) as the object's only
live handle. -/
theorem c8_connect_single_live_handle_witness :
    arenaGet (connectAvm2 ⟨[(0, some ⟨.avm2Socket 0, []⟩)], [], [⟨some (0, 0), []⟩]⟩
        0 "localhost" 80).slots (1, 0) = some ⟨.avm2Socket 0, []⟩ ∧
    arenaGet (connectAvm2 ⟨[(0, some ⟨.avm2Socket 0, []⟩)], [], [⟨some (0, 0), []⟩]⟩
        0 "localhost" 80).slots (0, 0) = none ∧
    ((connectAvm2 ⟨[(0, some ⟨.avm2Socket 0, []⟩)], [], [⟨some (0, 0), []⟩]⟩
        0 "localhost" 80).objs.getD 0 default).handle = some (1, 0) := by
  have hinv : ∀ (h : Handle) (e : SocketEntry),
      arenaGet (⟨[(0, some ⟨.avm2Socket 0, []⟩)], [], [⟨some (0, 0), []⟩]⟩ : SockSt).slots h =
        some e → e.target.obj = 0 → h = (0, 0) := by
    intro h e hget _
    obtain ⟨i, g⟩ := h
    cases i with
    | zero =>
        by_cases hg : (0 : Nat) = g
        · rw [← hg]
        · simp [arenaGet, hg] at hget
    | succ i =>
        simp [arenaGet] at hget
  have h := c8_connect_single_live_handle
    ⟨[(0, some ⟨.avm2Socket 0, []⟩)], [], [⟨some (0, 0), []⟩]⟩ 0 "localhost" 80 (0, 0)
    ⟨.avm2Socket 0, []⟩ (by decide) (by decide) (by decide) hinv
  exact ⟨h.1, h.2.1, h.2.2.2⟩

/-- Second definition for the refinement comparison of claim C1.  It follows
the specification sentence for `[[ResolveValue]]` word by word: every step up
to and including the fetch is the same as `listResolveValue`, but after the
fetch the sentence's "if that fetch yields a result of length 0 while the base
is an XMLList of length greater than 1 it raises error 1089; otherwise it
writes the empty string to that property on the base and re-fetches" makes the
write-and-refetch branch cover every non-error case — also a non-empty fetch. -/
def listResolveValueClaimed (fuel : Nat) (l : ListId) (st : St) :
    Except Err (Option XmlOrXmlList) × St :=
  match fuel with
  | 0 => (.error .outOfFuel, st)
  | f + 1 =>
    if (st.list l).children.length > 0 then (.ok (some (.list l)), st)
    else
      let st := reevaluateTargetObject l st
      match (st.list l).targetObject with
      | none => (.ok none, st)
      | some targetObject =>
        match (st.list l).targetProperty with
        | none => (.ok none, st)
        | some targetProperty =>
          if targetProperty.isAttr || targetProperty.isAnyName then (.ok none, st)
          else
            match
              (match targetObject with
               | .xml o => (Except.ok (some (XmlOrXmlList.xml o)), st)
               | .list tl => listResolveValueClaimed f tl st) with
            | (.error e, st) => (.error e, st)
            | (.ok none, st) => (.ok none, st)
            | (.ok (some base), st) =>
              match getPropertyLocalX base targetProperty st with
              | (.error e, st) => (.error e, st)
              | (.ok none, st) => (.ok none, st)
              | (.ok (some target), st) =>
                if decide ((lengthX st target).getD 0 = 0) &&
                   (match base with
                    | .list b => decide ((st.list b).children.length > 1)
                    | _ => false) then
                  (.error makeError1089, st)
                else
                  match
                    (match base with
                     | .xml o => xmlSetPropertyLocal f o targetProperty (.string "") st
                     | .list bl => listSetPropertyLocal f bl targetProperty (.string "") st) with
                  | (.error e, st) => (.error e, st)
                  | (.ok (), st) => getPropertyLocalX base targetProperty st

/-- C1 counterexample: on `<a><b>t</b></a>` with an empty list targeting
(`a`, "b"), the fetch is non-empty; the code returns it directly while the
claim's reading writes the empty string into `b` (erasing its text child) and
re-fetches, so the two disagree at this input. -/
theorem c1_resolve_value_counterexample :
    listResolveValue 10 0
        ⟨[⟨none, some "a", none, .element [] [1]⟩,
          ⟨some 0, some "b", none, .element [] [2]⟩,
          ⟨some 1, none, none, .text "t"⟩], [⟨0⟩],
         [⟨[], some (.xml 0), some (Multiname.mk' .pubNs "b"), false⟩]⟩ ≠
      listResolveValueClaimed 10 0
        ⟨[⟨none, some "a", none, .element [] [1]⟩,
          ⟨some 0, some "b", none, .element [] [2]⟩,
          ⟨some 1, none, none, .text "t"⟩], [⟨0⟩],
         [⟨[], some (.xml 0), some (Multiname.mk' .pubNs "b"), false⟩]⟩ := by
  decide

/-- Unfolding of `listResolveValue` at positive fuel, phrased through the
`resolveValueX` and `setPropertyLocalObj` dispatch wrappers. -/
lemma listResolveValue_succ (f : Nat) (l : ListId) (st : St) :
    listResolveValue (f + 1) l st =
      (if 0 < (st.list l).children.length then (.ok (some (.list l)), st)
       else
         let st := reevaluateTargetObject l st
         match (st.list l).targetObject with
         | none => (.ok none, st)
         | some tobj =>
           match (st.list l).targetProperty with
           | none => (.ok none, st)
           | some tprop =>
             if tprop.isAttr || tprop.isAnyName then (.ok none, st)
             else
               match resolveValueX f tobj st with
               | (.error e, st) => (.error e, st)
               | (.ok none, st) => (.ok none, st)
               | (.ok (some base), st) =>
                 match getPropertyLocalX base tprop st with
                 | (.error e, st) => (.error e, st)
                 | (.ok none, st) => (.ok none, st)
                 | (.ok (some target), st) =>
                   if (lengthX st target).getD 0 = 0 then
                     if (match base with
                         | XmlOrXmlList.list b => decide ((st.list b).children.length > 1)
                         | _ => false) then
                       (.error makeError1089, st)
                     else
                       match setPropertyLocalObj f base tprop (.string "") st with
                       | (.error e, st) => (.error e, st)
                       | (.ok (), st) => getPropertyLocalX base tprop st
                   else (.ok (some target), st)) := by
  rfl

/-- C1 (amended): ECMA-357 [[ResolveValue]] as the code implements it: a
non-empty list resolves to itself; an empty list with no target object, no
target property, or an attribute/wildcard target property resolves to no
value; otherwise the target object is resolved recursively (a null resolution
propagates); then the target property is fetched from the base: a fetch of
length 0 raises the catchable error 1089 when the base is an XMLList of length
greater than 1 and otherwise writes the empty string to that property on the
base and returns the re-fetch, while a non-empty fetch is returned directly
(without the empty-string write). -/
theorem c1_resolve_value_amended :
    (∀ (f : Nat) (l : ListId) (st : St), 0 < (st.list l).children.length →
      listResolveValue (f + 1) l st = (.ok (some (.list l)), st)) ∧
    (∀ (f : Nat) (l : ListId) (st : St), (st.list l).children = [] →
      (st.list l).targetObject = none →
      listResolveValue (f + 1) l st = (.ok none, st)) ∧
    (∀ (f : Nat) (l : ListId) (st : St) (tobj : XmlOrXmlList),
      (st.list l).children = [] → (st.list l).targetObject = some tobj →
      (st.list l).targetProperty = none →
      listResolveValue (f + 1) l st = (.ok none, st)) ∧
    (∀ (f : Nat) (l : ListId) (st : St) (tobj : XmlOrXmlList) (tprop : Multiname),
      (st.list l).children = [] → (st.list l).targetObject = some tobj →
      (st.list l).targetProperty = some tprop →
      (tprop.isAttr || tprop.isAnyName) = true →
      listResolveValue (f + 1) l st = (.ok none, st)) ∧
    (∀ (f : Nat) (l : ListId) (st st1 : St) (tobj : XmlOrXmlList) (tprop : Multiname),
      (st.list l).children = [] → (st.list l).targetObject = some tobj →
      (st.list l).targetProperty = some tprop →
      (tprop.isAttr || tprop.isAnyName) = false →
      resolveValueX f tobj st = (.ok none, st1) →
      listResolveValue (f + 1) l st = (.ok none, st1)) ∧
    (∀ (f : Nat) (l : ListId) (st st1 st2 : St) (tobj base target : XmlOrXmlList)
      (tprop : Multiname),
      (st.list l).children = [] → (st.list l).targetObject = some tobj →
      (st.list l).targetProperty = some tprop →
      (tprop.isAttr || tprop.isAnyName) = false →
      resolveValueX f tobj st = (.ok (some base), st1) →
      getPropertyLocalX base tprop st1 = (.ok (some target), st2) →
      (lengthX st2 target).getD 0 = 0 →
      (match base with
       | XmlOrXmlList.list b => decide ((st2.list b).children.length > 1)
       | _ => false) = true →
      listResolveValue (f + 1) l st = (.error makeError1089, st2)) ∧
    (∀ (f : Nat) (l : ListId) (st st1 st2 : St) (tobj base target : XmlOrXmlList)
      (tprop : Multiname),
      (st.list l).children = [] → (st.list l).targetObject = some tobj →
      (st.list l).targetProperty = some tprop →
      (tprop.isAttr || tprop.isAnyName) = false →
      resolveValueX f tobj st = (.ok (some base), st1) →
      getPropertyLocalX base tprop st1 = (.ok (some target), st2) →
      (lengthX st2 target).getD 0 = 0 →
      (match base with
       | XmlOrXmlList.list b => decide ((st2.list b).children.length > 1)
       | _ => false) = false →
      listResolveValue (f + 1) l st =
        (match setPropertyLocalObj f base tprop (.string "") st2 with
         | (.error e, st3) => (.error e, st3)
         | (.ok (), st3) => getPropertyLocalX base tprop st3)) ∧
    (∀ (f : Nat) (l : ListId) (st st1 st2 : St) (tobj base target : XmlOrXmlList)
      (tprop : Multiname),
      (st.list l).children = [] → (st.list l).targetObject = some tobj →
      (st.list l).targetProperty = some tprop →
      (tprop.isAttr || tprop.isAnyName) = false →
      resolveValueX f tobj st = (.ok (some base), st1) →
      getPropertyLocalX base tprop st1 = (.ok (some target), st2) →
      (lengthX st2 target).getD 0 ≠ 0 →
      listResolveValue (f + 1) l st = (.ok (some target), st2)) := by
  refine ⟨?_, ?_, ?_, ?_, ?_, ?_, ?_, ?_⟩
  · intro f l st h
    simp only [listResolveValue_succ]
    rw [if_pos h]
  · intro f l st h1 h2
    have hre := reevaluate_of_empty st l h1
    simp only [listResolveValue_succ]
    rw [if_neg (by simp [h1])]
    simp only [hre, h2]
  · intro f l st tobj h1 h2 h3
    have hre := reevaluate_of_empty st l h1
    simp only [listResolveValue_succ]
    rw [if_neg (by simp [h1])]
    simp only [hre, h2, h3]
  · intro f l st tobj tprop h1 h2 h3 h4
    have hre := reevaluate_of_empty st l h1
    simp only [listResolveValue_succ]
    rw [if_neg (by simp [h1])]
    simp only [hre, h2, h3, h4, if_true]
  · intro f l st st1 tobj tprop h1 h2 h3 h4 h5
    have hre := reevaluate_of_empty st l h1
    simp only [listResolveValue_succ]
    rw [if_neg (by simp [h1])]
    simp only [hre, h2, h3, h4, Bool.false_eq_true, if_false, h5]
  · intro f l st st1 st2 tobj base target tprop h1 h2 h3 h4 h5 h6 h7 h8
    have hre := reevaluate_of_empty st l h1
    simp only [listResolveValue_succ]
    rw [if_neg (by simp [h1])]
    simp only [hre, h2, h3, h4, Bool.false_eq_true, if_false, h5, h6, h7, h8, if_true]
  · intro f l st st1 st2 tobj base target tprop h1 h2 h3 h4 h5 h6 h7 h8
    have hre := reevaluate_of_empty st l h1
    simp only [listResolveValue_succ]
    rw [if_neg (by simp [h1])]
    simp only [hre, h2, h3, h4, Bool.false_eq_true, if_false, h5, h6, h7, h8, if_true]
  · intro f l st st1 st2 tobj base target tprop h1 h2 h3 h4 h5 h6 h7
    have hre := reevaluate_of_empty st l h1
    simp only [listResolveValue_succ]
    rw [if_neg (by simp [h1])]
    simp only [hre, h2, h3, h4, Bool.false_eq_true, if_false, h5, h6]
    rw [if_neg h7]

/-- A one-child list over a text node (resolves to itself). -/
def resolveStA : St := ⟨[⟨none, none, none, .text "t"⟩], [], [⟨[.e4x 0], none, none, false⟩]⟩

/-- An empty list with no target bookkeeping. -/
def resolveStB : St := ⟨[], [], [⟨[], none, none, false⟩]⟩

/-- An empty list with a target object but no target property. -/
def resolveStC : St :=
  ⟨[⟨none, some "a", none, .element [] []⟩], [⟨0⟩], [⟨[], some (.xml 0), none, false⟩]⟩

/-- An empty list whose target property is an attribute name. -/
def resolveStD : St :=
  ⟨[⟨none, some "a", none, .element [] []⟩], [⟨0⟩],
   [⟨[], some (.xml 0), some ⟨some "b", .pubNs, true⟩, false⟩]⟩

/-- An empty list targeting another empty, targetless list. -/
def resolveStE : St :=
  ⟨[], [], [⟨[], some (.list 1), some (Multiname.mk' .pubNs "b"), false⟩,
    ⟨[], none, none, false⟩]⟩

/-- An empty list targeting a two-item list (the error-1089 configuration). -/
def resolveStF : St :=
  ⟨[⟨none, some "x", none, .element [] []⟩, ⟨none, some "y", none, .element [] []⟩], [],
   [⟨[], some (.list 1), some (Multiname.mk' .pubNs "b"), false⟩,
    ⟨[.e4x 0, .e4x 1], none, none, false⟩]⟩

/-- An empty list targeting `<a/>` at property "b" (empty fetch, no multi). -/
def resolveStG : St :=
  ⟨[⟨none, some "a", none, .element [] []⟩], [⟨0⟩],
   [⟨[], some (.xml 0), some (Multiname.mk' .pubNs "b"), false⟩]⟩

/-- An empty list targeting `<a><b>t</b></a>` at property "b" (non-empty
fetch). -/
def resolveStH : St :=
  ⟨[⟨none, some "a", none, .element [] [1]⟩,
    ⟨some 0, some "b", none, .element [] [2]⟩,
    ⟨some 1, none, none, .text "t"⟩], [⟨0⟩],
   [⟨[], some (.xml 0), some (Multiname.mk' .pubNs "b"), false⟩]⟩

/-- Witness for C1 (amended), exercising every branch on concrete heaps: a
non-empty list, the three no-value guards, a target chain that resolves to
nothing, the error-1089 multi-item base, the empty-fetch write-and-refetch on
`<a/>`, and the non-empty fetch on `<a><b>t</b></a>` returned directly. -/
theorem c1_resolve_value_amended_witness :
    listResolveValue 1 0 resolveStA = (.ok (some (.list 0)), resolveStA) ∧
    listResolveValue 1 0 resolveStB = (.ok none, resolveStB) ∧
    listResolveValue 1 0 resolveStC = (.ok none, resolveStC) ∧
    listResolveValue 1 0 resolveStD = (.ok none, resolveStD) ∧
    listResolveValue 2 0 resolveStE = (.ok none, resolveStE) ∧
    listResolveValue 2 0 resolveStF =
      (.error makeError1089,
        (getPropertyLocalX (.list 1) (Multiname.mk' .pubNs "b") resolveStF).2) ∧
    listResolveValue 2 0 resolveStG =
      (match setPropertyLocalObj 1 (.xml 0) (Multiname.mk' .pubNs "b") (.string "")
          (getPropertyLocalX (.xml 0) (Multiname.mk' .pubNs "b") resolveStG).2 with
       | (.error e, st3) => (.error e, st3)
       | (.ok (), st3) => getPropertyLocalX (.xml 0) (Multiname.mk' .pubNs "b") st3) ∧
    listResolveValue 2 0 resolveStH =
      (.ok (some (.list 1)),
        (getPropertyLocalX (.xml 0) (Multiname.mk' .pubNs "b") resolveStH).2) :=
  ⟨c1_resolve_value_amended.1 0 0 resolveStA (by decide),
   c1_resolve_value_amended.2.1 0 0 resolveStB (by decide) (by decide),
   c1_resolve_value_amended.2.2.1 0 0 resolveStC (.xml 0) (by decide) (by decide) (by decide),
   c1_resolve_value_amended.2.2.2.1 0 0 resolveStD (.xml 0) ⟨some "b", .pubNs, true⟩
     (by decide) (by decide) (by decide) (by decide),
   c1_resolve_value_amended.2.2.2.2.1 1 0 resolveStE resolveStE (.list 1)
     (Multiname.mk' .pubNs "b") (by decide) (by decide) (by decide) (by decide) (by decide),
   c1_resolve_value_amended.2.2.2.2.2.1 1 0 resolveStF resolveStF
     (getPropertyLocalX (.list 1) (Multiname.mk' .pubNs "b") resolveStF).2 (.list 1) (.list 1)
     (.list 4) (Multiname.mk' .pubNs "b") (by decide) (by decide) (by decide) (by decide)
     (by decide) (by decide) (by decide) (by decide),
   c1_resolve_value_amended.2.2.2.2.2.2.1 1 0 resolveStG resolveStG
     (getPropertyLocalX (.xml 0) (Multiname.mk' .pubNs "b") resolveStG).2 (.xml 0) (.xml 0)
     (.list 1) (Multiname.mk' .pubNs "b") (by decide) (by decide) (by decide) (by decide)
     (by decide) (by decide) (by decide) (by decide),
   c1_resolve_value_amended.2.2.2.2.2.2.2 1 0 resolveStH resolveStH
     (getPropertyLocalX (.xml 0) (Multiname.mk' .pubNs "b") resolveStH).2 (.xml 0) (.xml 0)
     (.list 1) (Multiname.mk' .pubNs "b") (by decide) (by decide) (by decide) (by decide)
     (by decide) (by decide) (by decide)⟩
